import Mathlib

/-!
Verification development for the GTS identifier / schema-registry engine.

The Python source is shallowly embedded over `Str := List Char`: strings are
character lists, JSON documents are a tagged `Json` union, machine integers
are `Int`/`Nat`, and fallible constructors return `Except`.  Functions whose
Python counterparts recurse over dynamic JSON trees take an explicit fuel
argument so that every definition is a computable structural recursion.
-/

set_option maxRecDepth 10000

abbrev Str := List Char

/-- Single-quote character, used when building diagnostic messages. -/
def sqc : Str := [Char.ofNat 39]

/-- Left brace character (for Python repr-style messages). -/
def lbrace : Str := [Char.ofNat 123]

/-- Right brace character (for Python repr-style messages). -/
def rbrace : Str := [Char.ofNat 125]

/-- Python `str.isspace` over the ASCII whitespace characters (the source
only ever feeds ASCII identifiers through `strip`). -/
def isPySpace (c : Char) : Bool :=
  c = ' ' || c = '\t' || c = '\n' || c = '\r' || c = Char.ofNat 11 || c = Char.ofNat 12

/-- Python `str.strip()` (ASCII whitespace). -/
def pyStrip (l : Str) : Str :=
  ((l.dropWhile isPySpace).reverse.dropWhile isPySpace).reverse

/-- Python `str.lower()` restricted to ASCII (identifiers are ASCII). -/
def pyLower (l : Str) : Str :=
  l.map fun c => if 'A' ≤ c && c ≤ 'Z' then Char.ofNat (c.toNat + 32) else c

/-- Does `l` start with `p`?  (Python `str.startswith`.) -/
def strStarts : Str → Str → Bool
  | _, [] => true
  | [], _ :: _ => false
  | c :: l, p :: ps => c = p && strStarts l ps

/-- Does `l` end with `s`?  (Python `str.endswith`.) -/
def strEnds (l s : Str) : Bool :=
  strStarts l.reverse s.reverse

/-- Python `sep.flatten(parts)` for a separator string. -/
def joinSep (sep : Str) : List Str → Str
  | [] => []
  | [x] => x
  | x :: xs => x ++ sep ++ joinSep sep xs

/-- Python `s.split(c)` for a one-character separator (never returns `[]`). -/
def splitOnChar (c : Char) : Str → List Str
  | [] => [[]]
  | x :: xs =>
    if x = c then [] :: splitOnChar c xs
    else
      match splitOnChar c xs with
      | [] => [[x]]
      | h :: t => (x :: h) :: t

/-- Does the string contain a substring?  (Python `needle in hay`.) -/
def strHasSub (hay needle : Str) : Bool :=
  if strStarts hay needle then true
  else
    match hay with
    | [] => false
    | _ :: t => strHasSub t needle

/-- First-occurrence-preserving deduplication (Python `dict.fromkeys`). -/
def dedupFirstGo [BEq α] (seen : List α) : List α → List α
  | [] => []
  | a :: l => if seen.contains a then dedupFirstGo seen l else a :: dedupFirstGo (a :: seen) l

def dedupFirst [BEq α] (l : List α) : List α := dedupFirstGo [] l

/-- Lexicographic string order by code point (Python `<=` on `str`). -/
def strLe : Str → Str → Bool
  | [], _ => true
  | _ :: _, [] => false
  | a :: as, b :: bs =>
    if a.toNat < b.toNat then true
    else if b.toNat < a.toNat then false
    else strLe as bs

def insertSorted (s : Str) : List Str → List Str
  | [] => [s]
  | t :: ts => if strLe s t then s :: t :: ts else t :: insertSorted s ts

/-- Stable ascending sort (Python `sorted` on strings). -/
def sortStrs : List Str → List Str
  | [] => []
  | s :: ss => insertSorted s (sortStrs ss)

/-! ### Decimal rendering and parsing (Python `str(int)` / `int(str)`) -/

def isDigitChar (c : Char) : Bool := '0' ≤ c && c ≤ '9'

def charToDigit (c : Char) : Nat := c.toNat - 48

def digitToChar (d : Nat) : Char := Char.ofNat (48 + d)

/-- Little-endian decimal digits of `n`, with structural fuel. -/
def natDigitsRev (fuel : Nat) (n : Nat) : List Nat :=
  match fuel with
  | 0 => []
  | f + 1 => if n = 0 then [] else n % 10 :: natDigitsRev f (n / 10)

/-- Python `str(n)` for a natural number. -/
def natToChars (n : Nat) : Str :=
  if n = 0 then ['0'] else ((natDigitsRev (n + 1) n).reverse.map digitToChar)

/-- Python `str(i)` for an integer. -/
def intToChars (i : Int) : Str :=
  if i < 0 then '-' :: natToChars i.natAbs else natToChars i.toNat

/-- Parse an unsigned decimal numeral (digits only).  Mirrors the digit-only
core of Python `int`; numerals Python additionally accepts (underscores,
surrounding whitespace) are all rejected by the canonical-rendering re-check
performed by every caller, so the observable behaviour coincides. -/
def pyNat (l : Str) : Option Nat :=
  if l ≠ [] && l.all isDigitChar then
    some (l.foldl (fun a c => 10 * a + charToDigit c) 0)
  else none

/-- Python `int(s)` with an optional sign. -/
def pyInt (l : Str) : Option Int :=
  match l with
  | '-' :: rest => (pyNat rest).map fun n => -(n : Int)
  | '+' :: rest => (pyNat rest).map fun n => (n : Int)
  | _ => (pyNat l).map fun n => (n : Int)

/-! ### Identifier grammar (`gts.py`) -/

def gtsPrefix : Str := "gts.".data
def gtsUriPrefix : Str := "gts://".data

/-- Errors of the grammar: `GtsInvalidSegment`, `GtsInvalidId`, `GtsInvalidWildcard`. -/
inductive GtsError where
  | invalidSegment (num : Nat) (offset : Nat) (segment : Str) (cause : Option Str)
  | invalidId (gts_id : Str) (cause : Option Str)
  | invalidWildcard (pattern : Str) (cause : Option Str)
deriving Repr

/-- Python `str(e)` for the three grammar exceptions. -/
def renderGtsError : GtsError → Str
  | .invalidSegment num offset segment cause =>
    "Invalid GTS segment #".data ++ natToChars num ++ " @ offset ".data ++ natToChars offset
      ++ ": ".data ++ sqc ++ segment ++ sqc
      ++ (match cause with | some c => ": ".data ++ c | none => [])
  | .invalidId gts_id cause =>
    "Invalid GTS identifier: ".data ++ gts_id
      ++ (match cause with | some c => ": ".data ++ c | none => [])
  | .invalidWildcard pattern cause =>
    "Invalid GTS wildcard pattern: ".data ++ pattern
      ++ (match cause with | some c => ": ".data ++ c | none => [])

/-- Token alphabet of `GTS_SEGMENT_TOKEN_REGEX = ^[a-z_][a-z0-9_]*$`. -/
def isTokenStart (c : Char) : Bool := ('a' ≤ c && c ≤ 'z') || c = '_'

def isTokenChar (c : Char) : Bool := isTokenStart c || isDigitChar c

def tokenCore : Str → Bool
  | [] => false
  | c :: cs => isTokenStart c && cs.all isTokenChar

/-- Python `re.match` of the token regex; `$` also matches just before a
final newline, hence the second disjunct. -/
def gtsTokenMatch (s : Str) : Bool :=
  tokenCore s || (s.getLast? = some '\n' && tokenCore s.dropLast)

/-- Parsed GTS segment (class `GtsIdSegment`); the source field `namespace`
is a Lean keyword and is embedded as `nspace`. -/
structure GtsIdSegment where
  num : Nat
  offset : Nat
  segment : Str
  vendor : Str := []
  package : Str := []
  nspace : Str := []
  type : Str := []
  ver_major : Int := 0
  ver_minor : Option Int := none
  is_type : Bool := false
  is_wildcard : Bool := false
deriving Repr, DecidableEq

def causeTooManyTildes : Str :=
  "Too many ".data ++ sqc ++ "~".data ++ sqc ++ " characters".data

def causeTildeMustEnd : Str :=
  " ".data ++ sqc ++ "~".data ++ sqc ++ " must be at the end".data

/-- The token-assignment cascade of `_parse_segment_id` (a `*` token sets
`is_wildcard` and truncates parsing; the two version tokens are re-checked
against their canonical decimal rendering, exactly as `str(int(t)) != t`). -/
def segTokensCascade (s : GtsIdSegment) (num offset : Nat) (errSeg : Str) :
    List Str → Except GtsError GtsIdSegment
  | [] => .ok s
  | t0 :: rest0 =>
    if t0 = ['*'] then .ok { s with is_wildcard := true }
    else
      let s := { s with vendor := t0 }
      match rest0 with
      | [] => .ok s
      | t1 :: rest1 =>
        if t1 = ['*'] then .ok { s with is_wildcard := true }
        else
          let s := { s with package := t1 }
          match rest1 with
          | [] => .ok s
          | t2 :: rest2 =>
            if t2 = ['*'] then .ok { s with is_wildcard := true }
            else
              let s := { s with nspace := t2 }
              match rest2 with
              | [] => .ok s
              | t3 :: rest3 =>
                if t3 = ['*'] then .ok { s with is_wildcard := true }
                else
                  let s := { s with type := t3 }
                  match rest3 with
                  | [] => .ok s
                  | t4 :: rest4 =>
                    if t4 = ['*'] then .ok { s with is_wildcard := true }
                    else if ¬ strStarts t4 ['v'] then
                      .error (.invalidSegment num offset errSeg
                        (some ("Major version must start with ".data ++ sqc ++ "v".data ++ sqc)))
                    else
                      match pyInt (t4.drop 1) with
                      | none => .error (.invalidSegment num offset errSeg
                          (some "Major version must be an integer".data))
                      | some n =>
                        if n < 0 then
                          .error (.invalidSegment num offset errSeg
                            (some "Major version must be >= 0".data))
                        else if intToChars n ≠ t4.drop 1 then
                          .error (.invalidSegment num offset errSeg
                            (some "Major version must be an integer".data))
                        else
                          let s := { s with ver_major := n }
                          match rest4 with
                          | [] => .ok s
                          | t5 :: _ =>
                            if t5 = ['*'] then .ok { s with is_wildcard := true }
                            else
                              match pyInt t5 with
                              | none => .error (.invalidSegment num offset errSeg
                                  (some "Minor version must be an integer".data))
                              | some m =>
                                if m < 0 then
                                  .error (.invalidSegment num offset errSeg
                                    (some "Minor version must be >= 0".data))
                                else if intToChars m ≠ t5 then
                                  .error (.invalidSegment num offset errSeg
                                    (some "Minor version must be an integer".data))
                                else .ok { s with ver_minor := some m }

/-- Structural checks of `_parse_segment_id` after `~` handling: token count
bounds and the token regex on the first four tokens (skipped when the
segment ends in `*`). -/
def parse_segment_tokens (num offset : Nat) (stripped : Str) (isT : Bool) (seg : Str) :
    Except GtsError GtsIdSegment :=
  let tokens := splitOnChar '.' seg
  if tokens.length > 6 then
    .error (.invalidSegment num offset seg (some "Too many tokens".data))
  else if ¬ strEnds seg ['*'] && tokens.length < 5 then
    .error (.invalidSegment num offset seg (some "Too few tokens".data))
  else
    match (if ¬ strEnds seg ['*'] then (tokens.take 4).find? (fun t => ¬ gtsTokenMatch t) else none) with
    | some bad =>
      .error (.invalidSegment num offset seg (some ("Invalid segment token: ".data ++ bad)))
    | none =>
      segTokensCascade { num := num, offset := offset, segment := stripped, is_type := isT }
        num offset seg tokens

/-- `GtsIdSegment.__init__` / `_parse_segment_id`. -/
def parse_segment_id (num offset : Nat) (orig : Str) : Except GtsError GtsIdSegment :=
  let tcount := orig.count '~'
  if tcount > 0 then
    if tcount > 1 then
      .error (.invalidSegment num offset orig (some causeTooManyTildes))
    else if strEnds orig ['~'] then
      parse_segment_tokens num offset (pyStrip orig) true orig.dropLast
    else
      .error (.invalidSegment num offset orig (some causeTildeMustEnd))
  else
    parse_segment_tokens num offset (pyStrip orig) false orig

/-- Parsed GTS identifier (class `GtsID`): the normalized string plus its
parsed segments. -/
structure GtsID where
  id : Str
  gts_id_segments : List GtsIdSegment
deriving Repr, DecidableEq

/-- The part-reconstruction loop of `GtsID.__init__`: re-attach `~` to every
chunk but the last, stopping early when the final chunk is empty (which is
how a trailing `~` is detected without producing an empty segment). -/
def rebuildParts : List Str → List Str
  | [] => []
  | [a] => [a]
  | [a, b] => if b = [] then [a ++ ['~']] else [a ++ ['~'], b]
  | a :: rest => (a ++ ['~']) :: rebuildParts rest

def causeSingleSegment : Str :=
  ("Single-segment instance IDs are not allowed. " ++
   "Instance IDs must be chained (e.g., type~instance).").data

/-- The segment loop of `GtsID.__init__`: empty parts raise `GtsInvalidId`,
other parts are parsed as segments and offsets accumulate. -/
def parseSegmentsLoop (origId : Str) (i : Nat) (offset : Nat) :
    List Str → Except GtsError (List GtsIdSegment)
  | [] => .ok []
  | p :: ps =>
    if p = [] then
      .error (.invalidId origId (some ("GTS segment #".data ++ natToChars (i + 1)
        ++ " @ offset ".data ++ natToChars offset ++ " is empty".data)))
    else
      match parse_segment_id (i + 1) offset p with
      | .error e => .error e
      | .ok seg =>
        match parseSegmentsLoop origId (i + 1) (offset + p.length) ps with
        | .error e => .error e
        | .ok segs => .ok (seg :: segs)

/-- `GtsID.__init__`: strip, drop the `gts://` URI prefix, structural
checks, split on `~`, parse each segment, and reject single-segment
non-wildcard instance identifiers. -/
def GtsID.init (id : Str) : Except GtsError GtsID :=
  let raw0 := pyStrip id
  let raw := if strStarts raw0 gtsUriPrefix then raw0.drop gtsUriPrefix.length else raw0
  if raw ≠ pyLower raw then
    .error (.invalidId id (some "Must be lower case".data))
  else if raw.contains '-' then
    .error (.invalidId id (some ("Must not contain ".data ++ sqc ++ "-".data ++ sqc)))
  else if ¬ strStarts raw gtsPrefix then
    .error (.invalidId id (some ("Does not start with ".data ++ sqc ++ gtsPrefix ++ sqc)))
  else if raw.length > 1024 then
    .error (.invalidId id (some "Too long".data))
  else
    match parseSegmentsLoop id 0 gtsPrefix.length
        (rebuildParts (splitOnChar '~' (raw.drop gtsPrefix.length))) with
    | .error e => .error e
    | .ok segs =>
      if ¬ strEnds raw ['~'] && segs.length = 1 && ¬ segs.any (·.is_wildcard) then
        .error (.invalidId id (some causeSingleSegment))
      else .ok ⟨raw, segs⟩

def GtsID.is_type (g : GtsID) : Bool := strEnds g.id ['~']

/-- `GtsID.is_valid`: a cheap prefix pre-check on the *unstripped* input,
then attempt full construction, mapping any exception to `false`. -/
def GtsID.is_valid (s : Str) : Bool :=
  let normalized := if strStarts s gtsUriPrefix then s.drop gtsUriPrefix.length else s
  if ¬ strStarts normalized gtsPrefix then false
  else
    match GtsID.init s with
    | .ok _ => true
    | .error _ => false

/-- The pairwise loop of `match_segments` inside `GtsID.wildcard_match`.
The `(_ :: _, [])` case is unreachable under the caller's length guard. -/
def match_segments_go : List GtsIdSegment → List GtsIdSegment → Bool
  | [], _ => true
  | _ :: _, [] => true
  | p :: ps, c :: cs =>
    if p.is_wildcard then
      if p.vendor ≠ [] && p.vendor ≠ c.vendor then false
      else if p.package ≠ [] && p.package ≠ c.package then false
      else if p.nspace ≠ [] && p.nspace ≠ c.nspace then false
      else if p.type ≠ [] && p.type ≠ c.type then false
      else if p.ver_major ≠ 0 && p.ver_major ≠ c.ver_major then false
      else if p.ver_minor.isSome && p.ver_minor ≠ c.ver_minor then false
      else if p.is_type && p.is_type ≠ c.is_type then false
      else true
    else
      if p.vendor ≠ c.vendor then false
      else if p.package ≠ c.package then false
      else if p.nspace ≠ c.nspace then false
      else if p.type ≠ c.type then false
      else if p.ver_major ≠ c.ver_major then false
      else if p.ver_minor.isSome && p.ver_minor ≠ c.ver_minor then false
      else if p.is_type ≠ c.is_type then false
      else match_segments_go ps cs

/-- `match_segments`: a pattern longer than the candidate never matches. -/
def match_segments (pattern_segs candidate_segs : List GtsIdSegment) : Bool :=
  if pattern_segs.length > candidate_segs.length then false
  else match_segments_go pattern_segs candidate_segs

/-- `GtsID.wildcard_match`. -/
def GtsID.wildcard_match (self pattern : GtsID) : Bool :=
  let p := pattern.id
  if ¬ p.contains '*' then
    match_segments pattern.gts_id_segments self.gts_id_segments
  else if p.count '*' > 1 || ¬ strEnds p ['*'] then false
  else match_segments pattern.gts_id_segments self.gts_id_segments

/-- `GtsWildcard.__init__`: wildcard-placement checks, then `GtsID`
construction; `GtsInvalidId` (only) is rewrapped as `GtsInvalidWildcard`
with the stringified inner exception as cause. -/
def GtsWildcard.init (pattern : Str) : Except GtsError GtsID :=
  let p := pyStrip pattern
  if ¬ strStarts p gtsPrefix then
    .error (.invalidWildcard pattern (some ("Does not start with ".data ++ sqc ++ gtsPrefix ++ sqc)))
  else if p.count '*' > 1 then
    .error (.invalidWildcard pattern (some ("The wildcard ".data ++ sqc ++ "*".data ++ sqc
      ++ " token is allowed only once".data)))
  else if p.contains '*' && ¬ strEnds p ".*".data && ¬ strEnds p "~*".data then
    .error (.invalidWildcard pattern (some ("The wildcard ".data ++ sqc ++ "*".data ++ sqc
      ++ " token is allowed only at the end of the pattern".data)))
  else
    match GtsID.init p with
    | .ok g => .ok g
    | .error (.invalidId i c) =>
      .error (.invalidWildcard pattern (some (renderGtsError (.invalidId i c))))
    | .error e => .error e

/-! ### JSON values -/

/-- Parsed JSON/YAML content: Python `None`/`bool`/`int`/`str`/`list`/`dict`
with insertion-ordered string keys.  (Float-valued documents are outside the
scope of the embedded claims.) -/
inductive Json where
  | null
  | bool (b : Bool)
  | num (n : Int)
  | str (s : Str)
  | arr (elems : List Json)
  | obj (entries : List (Str × Json))

/-- Python truthiness of a JSON value. -/
def jsonTruthy : Json → Bool
  | .null => false
  | .bool b => b
  | .num n => n ≠ 0
  | .str s => s ≠ []
  | .arr xs => !xs.isEmpty
  | .obj kvs => !kvs.isEmpty

/-- Dict lookup (first binding wins, as keys are unique in Python dicts). -/
def lookupA : List (Str × Json) → Str → Option Json
  | [], _ => none
  | (k', v') :: rest, k => if k' = k then some v' else lookupA rest k

def hasKeyA (l : List (Str × Json)) (k : Str) : Bool := (lookupA l k).isSome

/-- Python dict assignment: replace in place, else append. -/
def insertA : List (Str × Json) → Str → Json → List (Str × Json)
  | [], k, v => [(k, v)]
  | (k', v') :: rest, k, v =>
    if k' = k then (k, v) :: rest else (k', v') :: insertA rest k v

/-- Python `del d[k]` (the key occurs at most once). -/
def eraseA : List (Str × Json) → Str → List (Str × Json)
  | [], _ => []
  | (k', v') :: rest, k => if k' = k then rest else (k', v') :: eraseA rest k

/-- Python `dict.update`. -/
def updDict (base upd : List (Str × Json)) : List (Str × Json) :=
  upd.foldl (fun acc kv => insertA acc kv.1 kv.2) base

/-- `d.get(k)` on a JSON value that may not be a dict. -/
def Json.get (j : Json) (k : Str) : Option Json :=
  match j with
  | .obj kvs => lookupA kvs k
  | _ => none

/-- Equality as used by Python `set` operations over JSON values.  Python
hashes only `None`/`bool`/`int`/`str` here (a list or dict element would
raise `TypeError: unhashable type` before any comparison), so containers
are modelled as never equal. -/
def jsonPrimEq : Json → Json → Bool
  | .null, .null => true
  | .bool a, .bool b => a = b
  | .num a, .num b => a = b
  | .str a, .str b => a = b
  | _, _ => false

/-- Python `str(x)` on JSON scalars; container rendering is abstracted (no
embedded claim depends on it). -/
def pyStrJson : Json → Str
  | .null => "None".data
  | .bool true => "True".data
  | .bool false => "False".data
  | .num n => intToChars n
  | .str s => s
  | .arr _ => "<list>".data
  | .obj _ => "<dict>".data

/-! ### Path resolver (`path_resolver.py`) -/

/-- Result state of `GtsPathResolver.resolve` (the dataclass fields that
`resolve` assigns). -/
structure GtsPathResolver where
  gts_id : Str
  content : Json
  path : Str := []
  value : Json := .null
  resolved : Bool := false
  error : Option Str := none
  available_fields : List Str := []

/-- `_normalize`: slashes become dots. -/
def prNormalize (path : Str) : Str :=
  path.map fun c => if c = '/' then '.' else c

/-- `_split_raw_parts`. -/
def prSplitRawParts (norm : Str) : List Str :=
  (splitOnChar '.' norm).filter (· ≠ [])

/-- `_parse_part` as a two-state scanner: outside brackets characters
accumulate in `buf`; `[` flushes `buf` and opens a bracket token which closes
at the first `]` (an unterminated bracket token swallows the rest). -/
def parsePartGo : Str → Str → Bool → List Str
  | [], buf, _ => if buf ≠ [] then [buf] else []
  | c :: rest, buf, inBracket =>
    if inBracket then
      if c = ']' then (buf ++ [']']) :: parsePartGo rest [] false
      else parsePartGo rest (buf ++ [c]) true
    else
      if c = '[' then
        (if buf ≠ [] then [buf] else []) ++ parsePartGo rest ['['] true
      else parsePartGo rest (buf ++ [c]) false

def prParsePart (seg : Str) : List Str := parsePartGo seg [] false

/-- `_parts`. -/
def prParts (path : Str) : List Str :=
  ((prSplitRawParts (prNormalize path)).map prParsePart).flatten

/-- `_list_available`, with structural fuel for the tree recursion. -/
def list_available (fuel : Nat) (node : Json) (pre : Str) : List Str :=
  match fuel with
  | 0 => []
  | f + 1 =>
    match node with
    | .obj kvs =>
      (kvs.map fun kv =>
        let p := if pre ≠ [] then pre ++ ['.'] ++ kv.1 else kv.1
        p :: (match kv.2 with
              | .obj _ => list_available f kv.2 p
              | .arr _ => list_available f kv.2 p
              | _ => [])).flatten
    | .arr xs =>
      (xs.enum.map fun iv =>
        let p := pre ++ ['['] ++ natToChars iv.1 ++ [']']
        p :: (match iv.2 with
              | .obj _ => list_available f iv.2 p
              | .arr _ => list_available f iv.2 p
              | _ => [])).flatten
    | _ => []

def collect_from (fuel : Nat) (node : Json) : List Str :=
  list_available fuel node []

/-- Python `str(type(x))` for the "cannot descend" diagnostic. -/
def pyTypeName : Json → Str
  | .null => "<class ".data ++ sqc ++ "NoneType".data ++ sqc ++ ">".data
  | .bool _ => "<class ".data ++ sqc ++ "bool".data ++ sqc ++ ">".data
  | .num _ => "<class ".data ++ sqc ++ "int".data ++ sqc ++ ">".data
  | .str _ => "<class ".data ++ sqc ++ "str".data ++ sqc ++ ">".data
  | .arr _ => "<class ".data ++ sqc ++ "list".data ++ sqc ++ ">".data
  | .obj _ => "<class ".data ++ sqc ++ "dict".data ++ sqc ++ ">".data

/-- The token-walking loop of `resolve`; `fuel` only feeds the
available-fields collector. -/
def resolveLoop (fuel : Nat) (gts_id : Str) (content : Json) (path : Str) :
    List Str → Json → GtsPathResolver
  | [], cur =>
    { gts_id := gts_id, content := content, path := path,
      value := cur, resolved := true, error := none, available_fields := [] }
  | p :: ps, cur =>
    let fail := fun (msg : Str) (avail : List Str) =>
      ({ gts_id := gts_id, content := content, path := path,
         value := .null, resolved := false, error := some msg,
         available_fields := avail } : GtsPathResolver)
    match cur with
    | .arr xs =>
      let idxParse :=
        if strStarts p ['['] && strEnds p [']'] then pyInt (p.drop 1).dropLast
        else pyInt p
      match idxParse with
      | none =>
        fail ("Expected list index at segment ".data ++ sqc ++ p ++ sqc)
          (collect_from fuel (.arr xs))
      | some idx =>
        if idx < 0 || (xs.length : Int) ≤ idx then
          fail ("Index out of range at segment ".data ++ sqc ++ p ++ sqc)
            (collect_from fuel (.arr xs))
        else
          match xs.get? idx.toNat with
          | some v => resolveLoop fuel gts_id content path ps v
          | none => fail "unreachable: bounds were checked".data []
    | .obj kvs =>
      if strStarts p ['['] && strEnds p [']'] then
        fail ("Path not found at segment ".data ++ sqc ++ p ++ sqc ++ " in ".data
          ++ sqc ++ path ++ sqc ++ ", see available fields".data)
          (collect_from fuel (.obj kvs))
      else
        match lookupA kvs p with
        | some v => resolveLoop fuel gts_id content path ps v
        | none =>
          fail ("Path not found at segment ".data ++ sqc ++ p ++ sqc ++ " in ".data
            ++ sqc ++ path ++ sqc ++ ", see available fields".data)
            (collect_from fuel (.obj kvs))
    | other =>
      fail ("Cannot descend into ".data ++ pyTypeName other ++ " at segment ".data
        ++ sqc ++ p ++ sqc) []

/-- `GtsPathResolver.resolve`. -/
def GtsPathResolver.resolve (fuel : Nat) (gts_id : Str) (content : Json) (path : Str) :
    GtsPathResolver :=
  resolveLoop fuel gts_id content path (prParts path) content

/-! ### x-gts-ref validator (`x_gts_ref.py`) -/

/-- Fields of `XGtsRefValidationError` relevant to instance-side checks. -/
structure XGtsRefValidationError where
  field_path : Str
  value : Str
  ref_pattern : Str
  reason : Str
deriving Repr, DecidableEq

/-- `XGtsRefValidator._validate_gts_pattern`: check that a string instance
value satisfies an (already absolute) `x-gts-ref` pattern.  The optional
registry is abstracted to an existence predicate (`store.get(value)`
truthiness); `none` models a validator constructed without a store. -/
def validate_gts_pattern (store : Option (Str → Bool)) (value pattern field_path : Str) :
    Option XGtsRefValidationError :=
  if ¬ GtsID.is_valid value then
    some ⟨field_path, value, pattern,
      "Value ".data ++ sqc ++ value ++ sqc ++ " is not a valid GTS identifier".data⟩
  else
    let mismatch : Option XGtsRefValidationError :=
      if pattern = "gts.*".data then none
      else if strEnds pattern ['*'] then
        if ¬ strStarts value pattern.dropLast then
          some ⟨field_path, value, pattern,
            "Value ".data ++ sqc ++ value ++ sqc ++ " does not match pattern ".data
              ++ sqc ++ pattern ++ sqc⟩
        else none
      else if ¬ strStarts value pattern then
        some ⟨field_path, value, pattern,
          "Value ".data ++ sqc ++ value ++ sqc ++ " does not match pattern ".data
            ++ sqc ++ pattern ++ sqc⟩
      else none
    match mismatch with
    | some e => some e
    | none =>
      match store with
      | none => none
      | some has =>
        if ¬ has value then
          some ⟨field_path, value, pattern,
            "Referenced entity ".data ++ sqc ++ value ++ sqc ++ " not found in registry".data⟩
        else none

/-! ### Schema compatibility and cast engine (`schema_cast.py`) -/

/-- The `GtsEntityCastResult` dataclass.  `changed_properties` is a list of
string-to-string maps in the source; it is always `[]` on the embedded
paths. -/
structure GtsEntityCastResult where
  from_id : Str := []
  to_id : Str := []
  direction : Str := "unknown".data
  added_properties : List Str := []
  removed_properties : List Str := []
  changed_properties : List (List (Str × Str)) := []
  is_fully_compatible : Bool := false
  is_backward_compatible : Bool := false
  is_forward_compatible : Bool := false
  incompatibility_reasons : List Str := []
  backward_errors : List Str := []
  forward_errors : List Str := []
  casted_entity : Option Json := none
  error : Str := []

/-- `_infer_direction`: compare the minor versions of the final segments;
any parse failure or missing minor yields `"unknown"`. -/
def infer_direction (from_id to_id : Str) : Str :=
  match GtsID.init from_id, GtsID.init to_id with
  | .ok gf, .ok gt =>
    match gf.gts_id_segments.getLast?, gt.gts_id_segments.getLast? with
    | some fs, some ts =>
      match fs.ver_minor, ts.ver_minor with
      | some fm, some tm =>
        if tm > fm then "up".data
        else if tm < fm then "down".data
        else "none".data
      | _, _ => "unknown".data
    | _, _ => "unknown".data
  | _, _ => "unknown".data

/-- `_effective_object_schema`. -/
def effective_object_schema (s : Json) : Json :=
  match s with
  | .obj kvs =>
    let hasShape := fun (j : Json) =>
      match j with
      | .obj jkvs =>
        (match lookupA jkvs "properties".data with | some (.obj _) => true | _ => false)
        || (match lookupA jkvs "required".data with | some (.arr _) => true | _ => false)
      | _ => false
    if hasShape (.obj kvs) then .obj kvs
    else
      match lookupA kvs "allOf".data with
      | some (.arr parts) =>
        match parts.find? hasShape with
        | some part => part
        | none => .obj kvs
      | _ => .obj kvs
  | _ => .obj []

/-- `_flatten_schema` (fuel drives the `allOf` recursion).  Non-dict
`properties` / non-list `required` values would raise in Python and are
modelled as being skipped. -/
def flatten_schema (fuel : Nat) (schema : Json) : Json :=
  match fuel with
  | 0 => .obj [("properties".data, .obj []), ("required".data, .arr [])]
  | f + 1 =>
    let acc : List (Str × Json) × List Json × Option Json :=
      match schema.get "allOf".data with
      | some (.arr subs) =>
        subs.foldl
          (fun acc sub =>
            let flattened := flatten_schema f sub
            let props :=
              match flattened.get "properties".data with
              | some (.obj p) => updDict acc.1 p
              | _ => acc.1
            let reqs :=
              match flattened.get "required".data with
              | some (.arr r) => acc.2.1 ++ r
              | _ => acc.2.1
            let addl :=
              match flattened.get "additionalProperties".data with
              | some v => some v
              | none => acc.2.2
            (props, reqs, addl))
          ([], [], none)
      | _ => ([], [], none)
    let props :=
      match schema.get "properties".data with
      | some (.obj p) => updDict acc.1 p
      | _ => acc.1
    let reqs :=
      match schema.get "required".data with
      | some (.arr r) => acc.2.1 ++ r
      | _ => acc.2.1
    let addl :=
      match schema.get "additionalProperties".data with
      | some v => some v
      | none => acc.2.2
    match addl with
    | some a =>
      .obj [("properties".data, .obj props), ("required".data, .arr reqs),
            ("additionalProperties".data, a)]
    | none => .obj [("properties".data, .obj props), ("required".data, .arr reqs)]

/-- `_remove_gts_const_constraints` (fuel drives the tree recursion). -/
def remove_gts_const_constraints (fuel : Nat) (schema : Json) : Json :=
  match fuel with
  | 0 => schema
  | f + 1 =>
    match schema with
    | .obj kvs =>
      .obj (kvs.foldl
        (fun result kv =>
          if kv.1 = "const".data
              && (match kv.2 with | .str v => GtsID.is_valid v | _ => false) then
            insertA result "type".data (.str "string".data)
          else
            match kv.2 with
            | .obj _ => insertA result kv.1 (remove_gts_const_constraints f kv.2)
            | .arr items =>
              insertA result kv.1 (.arr (items.map fun item =>
                match item with
                | .obj _ => remove_gts_const_constraints f item
                | _ => item))
            | _ => insertA result kv.1 kv.2)
        [])
    | _ => schema

/-- Membership as Python `in` over a set of hashable JSON values. -/
def containsPrim (l : List Json) (j : Json) : Bool := l.any (jsonPrimEq · j)

/-- Python `set(...)` iteration, modelled as first-occurrence order. -/
def dedupPrimGo (seen : List Json) : List Json → List Json
  | [] => []
  | a :: l =>
    if containsPrim seen a then dedupPrimGo seen l
    else a :: dedupPrimGo (a :: seen) l

def dedupPrim (l : List Json) : List Json := dedupPrimGo [] l

/-- `schema.get("properties", {})` as a key/value list. -/
def schemaProps (schema : Json) : List (Str × Json) :=
  match schema.get "properties".data with | some (.obj kvs) => kvs | _ => []

/-- `set(schema.get("required", []))` in first-occurrence order. -/
def schemaRequired (schema : Json) : List Json :=
  match schema.get "required".data with | some (.arr xs) => dedupPrim xs | _ => []

/-- Path prefixing `f"{base_path}.{prop}" if base_path else prop`. -/
def castPath (base_path prop : Str) : Str :=
  if base_path ≠ [] then base_path ++ ['.'] ++ prop else prop

def missingRequiredMsg (path : Str) : Str :=
  "Missing required property ".data ++ sqc ++ path ++ sqc
    ++ " and no default is defined".data

/-- Step 1 of `_cast_instance_to_schema`: ensure required properties exist,
filling declared defaults and recording a reason otherwise.  A non-string
required entry is never a key of the (string-keyed) instance and has no
property schema, so it always produces a reason. -/
def castStep1 (target_props : List (Str × Json)) (base_path : Str) :
    List Json → List (Str × Json) × List Str × List Str →
    List (Str × Json) × List Str × List Str
  | [], acc => acc
  | prop :: rest, (result, added, reasons) =>
    match prop with
    | .str pname =>
      if hasKeyA result pname then castStep1 target_props base_path rest (result, added, reasons)
      else
        let p_schema := (lookupA target_props pname).getD (.obj [])
        match (match p_schema with | .obj pkvs => lookupA pkvs "default".data | _ => none) with
        | some d =>
          castStep1 target_props base_path rest
            (insertA result pname d, added ++ [castPath base_path pname], reasons)
        | none =>
          castStep1 target_props base_path rest
            (result, added, reasons ++ [missingRequiredMsg (castPath base_path pname)])
    | other =>
      castStep1 target_props base_path rest
        (result, added, reasons ++ [missingRequiredMsg (castPath base_path (pyStrJson other))])

/-- Step 2: fill defaults of missing optional properties. -/
def castStep2 (required : List Json) (base_path : Str) :
    List (Str × Json) → List (Str × Json) × List Str →
    List (Str × Json) × List Str
  | [], acc => acc
  | (prop, p_schema) :: rest, (result, added) =>
    if containsPrim required (.str prop) then
      castStep2 required base_path rest (result, added)
    else if ¬ hasKeyA result prop
        && (match p_schema with | .obj pkvs => hasKeyA pkvs "default".data | _ => false) then
      let d := (match p_schema with | .obj pkvs => lookupA pkvs "default".data | _ => none).getD .null
      castStep2 required base_path rest
        (insertA result prop d, added ++ [castPath base_path prop])
    else castStep2 required base_path rest (result, added)

/-- Step 2.5: stamp `const` values that are GTS identifiers over differing
GTS-identifier instance values. -/
def castStep25 : List (Str × Json) → List (Str × Json) → List (Str × Json)
  | [], result => result
  | (prop, p_schema) :: rest, result =>
    match (match p_schema with | .obj pkvs => lookupA pkvs "const".data | _ => none) with
    | some const_value =>
      (match lookupA result prop with
       | some old_value =>
         match const_value, old_value with
         | .str cv, .str ov =>
           if GtsID.is_valid cv && GtsID.is_valid ov && ov ≠ cv then
             castStep25 rest (insertA result prop (.str cv))
           else castStep25 rest result
         | _, _ => castStep25 rest result
       | none => castStep25 rest result)
    | none => castStep25 rest result

/-- Step 3: with `additionalProperties: false`, drop instance properties not
declared by the target (iterating a snapshot of the current keys). -/
def castStep3 (target_props : List (Str × Json)) (base_path : Str) :
    List Str → List (Str × Json) × List Str → List (Str × Json) × List Str
  | [], acc => acc
  | prop :: rest, (result, removed) =>
    if ¬ hasKeyA target_props prop then
      castStep3 target_props base_path rest
        (eraseA result prop, removed ++ [castPath base_path prop])
    else castStep3 target_props base_path rest (result, removed)

/-- Is the JSON value exactly the given string?  (Python `x == "s"`.) -/
def isStrVal (j : Json) (s : Str) : Bool :=
  match j with | .str t => t = s | _ => false

def optIsStrVal (o : Option Json) (s : Str) : Bool :=
  match o with | some j => isStrVal j s | _ => false

/-- The array-items loop of step 4; `rec` is the recursive cast at the next
fuel level. -/
def castItems (rec : Json → Json → Str → Except Str (Json × List Str × List Str × List Str))
    (nested_schema : Json) (item_base : Str) :
    List (Nat × Json) → List Json × List Str × List Str × List Str →
    Except Str (List Json × List Str × List Str × List Str)
  | [], acc => .ok acc
  | (idx, item) :: rest, (out, added, removed, reasons) =>
    match item with
    | .obj _ =>
      match rec item nested_schema (item_base ++ ['['] ++ natToChars idx ++ [']']) with
      | .error e => .error e
      | .ok (new_item, add_sub, rem_sub, rs_sub) =>
        castItems rec nested_schema item_base rest
          (out ++ [new_item], added ++ add_sub, removed ++ rem_sub, reasons ++ rs_sub)
    | _ =>
      castItems rec nested_schema item_base rest (out ++ [item], added, removed, reasons)

/-- Step 4: recurse into nested object- and array-of-object-valued
properties.  Note the item base path omits the dot between `base_path` and
`prop[idx]`... it is `f"{base_path}.{prop}[{idx}]"`, built below. -/
def castStep4 (rec : Json → Json → Str → Except Str (Json × List Str × List Str × List Str))
    (base_path : Str) :
    List (Str × Json) → List (Str × Json) × List Str × List Str × List Str →
    Except Str (List (Str × Json) × List Str × List Str × List Str)
  | [], acc => .ok acc
  | (prop, p_schema) :: rest, (result, added, removed, reasons) =>
    match lookupA result prop with
    | none => castStep4 rec base_path rest (result, added, removed, reasons)
    | some val =>
      match p_schema with
      | .obj pkvs =>
        let p_type := lookupA pkvs "type".data
        if optIsStrVal p_type "object".data
            && (match val with | .obj _ => true | _ => false) then
          match rec val (effective_object_schema p_schema) (castPath base_path prop) with
          | .error e => .error e
          | .ok (new_obj, add_sub, rem_sub, rs_sub) =>
            castStep4 rec base_path rest
              (insertA result prop new_obj, added ++ add_sub, removed ++ rem_sub,
               reasons ++ rs_sub)
        else if optIsStrVal p_type "array".data
            && (match val with | .arr _ => true | _ => false) then
          match lookupA pkvs "items".data with
          | some items_schema =>
            if (match items_schema with
                | .obj ikvs => optIsStrVal (lookupA ikvs "type".data) "object".data
                | _ => false) then
              match val with
              | .arr items =>
                match castItems rec (effective_object_schema items_schema)
                    (castPath base_path prop) items.enum ([], [], [], []) with
                | .error e => .error e
                | .ok (new_list, add2, rem2, rs2) =>
                  castStep4 rec base_path rest
                    (insertA result prop (.arr new_list), added ++ add2,
                     removed ++ rem2, reasons ++ rs2)
              | _ => castStep4 rec base_path rest (result, added, removed, reasons)
            else castStep4 rec base_path rest (result, added, removed, reasons)
          | none => castStep4 rec base_path rest (result, added, removed, reasons)
        else castStep4 rec base_path rest (result, added, removed, reasons)
      | _ => castStep4 rec base_path rest (result, added, removed, reasons)

/-- Re-wrap the step-4 output, turning the key/value list back into a JSON
object. -/
def castFinish (r : Except Str (List (Str × Json) × List Str × List Str × List Str)) :
    Except Str (Json × List Str × List Str × List Str) :=
  match r with
  | .error e => .error e
  | .ok (r4, added4, removed4, reasons4) => .ok (.obj r4, added4, removed4, reasons4)

/-- The object branch of `_cast_instance_to_schema`: steps 1, 2, 2.5, 3 and
4 in sequence; `rec` is the recursive cast at the next fuel level. -/
def cast_instance_obj (rec : Json → Json → Str → Except Str (Json × List Str × List Str × List Str))
    (inst : List (Str × Json)) (schema : Json) (base_path : Str) :
    Except Str (Json × List Str × List Str × List Str) :=
  let target_props := schemaProps schema
  let required := schemaRequired schema
  let additional := (schema.get "additionalProperties".data).getD (.bool true)
  let s1 := castStep1 target_props base_path required (inst, [], [])
  let s2 := castStep2 required base_path target_props (s1.1, s1.2.1)
  let r25 := castStep25 target_props s2.1
  let s3 :=
    if (match additional with | .bool false => true | _ => false) then
      castStep3 target_props base_path (r25.map Prod.fst) (r25, [])
    else (r25, [])
  castFinish (castStep4 rec base_path target_props (s3.1, s2.2, s3.2, s1.2.2))

/-- `_cast_instance_to_schema`.  The mutable-default `incompatibility_reasons`
parameter of the source is rebound to a fresh list on entry, so each call is
independent; the returned 4-tuple is `(result, added, removed, reasons)`. -/
def cast_instance_to_schema (fuel : Nat) (inst0 : Json) (schema : Json)
    (base_path : Str) : Except Str (Json × List Str × List Str × List Str) :=
  match fuel with
  | 0 => .ok (inst0, [], [], [])
  | f + 1 =>
    match inst0 with
    | .obj inst => cast_instance_obj (cast_instance_to_schema f) inst schema base_path
    | _ => .error "Instance must be an object for casting".data

/-- JSON value equality as Python `==`, with fuel; dict comparison ignores
key order, as Python dict equality does. -/
def jsonEqFuel : Nat → Json → Json → Bool
  | 0, _, _ => false
  | f + 1, a, b =>
    match a, b with
    | .null, .null => true
    | .bool x, .bool y => x = y
    | .num x, .num y => x = y
    | .str x, .str y => x = y
    | .arr xs, .arr ys =>
      xs.length = ys.length && (xs.zip ys).all fun p => jsonEqFuel f p.1 p.2
    | .obj xs, .obj ys =>
      xs.length = ys.length && xs.all fun kv =>
        match lookupA ys kv.1 with
        | some w => jsonEqFuel f kv.2 w
        | none => false
    | _, _ => false

/-- Numeric view of a JSON value for constraint comparison (Python compares
`bool` as `int`; non-numeric operands would raise `TypeError` and are
modelled as incomparable). -/
def jsonAsNum : Json → Option Int
  | .num n => some n
  | .bool b => some (if b then 1 else 0)
  | _ => none

def jsonNumGt (a b : Json) : Bool :=
  match jsonAsNum a, jsonAsNum b with
  | some x, some y => x > y
  | _, _ => false

def jsonNumLt (a b : Json) : Bool :=
  match jsonAsNum a, jsonAsNum b with
  | some x, some y => x < y
  | _, _ => false

/-- `schema.get(key)` where a JSON `null` value and a missing key are both
Python `None`. -/
def getNN (j : Json) (k : Str) : Option Json :=
  match j.get k with
  | some .null => none
  | x => x

/-- Python `repr` of a hashable JSON scalar (for set-valued messages). -/
def pyReprPrim : Json → Str
  | .null => "None".data
  | .bool true => "True".data
  | .bool false => "False".data
  | .num n => intToChars n
  | .str s => sqc ++ s ++ sqc
  | .arr _ => "<list>".data
  | .obj _ => "<dict>".data

/-- Python `str` of a set of scalars (iteration order abstracted to
first-occurrence order). -/
def pySetRepr (vals : List Json) : Str :=
  lbrace ++ joinSep ", ".data (vals.map pyReprPrim) ++ rbrace

/-- `_check_min_max_constraint`. -/
def check_min_max_constraint (prop : Str) (old_schema new_schema : Json)
    (min_key max_key : Str) (check_tightening : Bool) : List Str :=
  let minPart :=
    match getNN old_schema min_key, getNN new_schema min_key with
    | some old_min, some new_min =>
      if check_tightening && jsonNumGt new_min old_min then
        ["Property ".data ++ sqc ++ prop ++ sqc ++ " ".data ++ min_key
          ++ " increased from ".data ++ pyStrJson old_min ++ " to ".data ++ pyStrJson new_min]
      else if ¬ check_tightening && jsonNumLt new_min old_min then
        ["Property ".data ++ sqc ++ prop ++ sqc ++ " ".data ++ min_key
          ++ " decreased from ".data ++ pyStrJson old_min ++ " to ".data ++ pyStrJson new_min]
      else []
    | none, some new_min =>
      if check_tightening then
        ["Property ".data ++ sqc ++ prop ++ sqc ++ " added ".data ++ min_key
          ++ " constraint: ".data ++ pyStrJson new_min]
      else []
    | some _, none =>
      if ¬ check_tightening then
        ["Property ".data ++ sqc ++ prop ++ sqc ++ " removed ".data ++ min_key
          ++ " constraint".data]
      else []
    | none, none => []
  let maxPart :=
    match getNN old_schema max_key, getNN new_schema max_key with
    | some old_max, some new_max =>
      if check_tightening && jsonNumLt new_max old_max then
        ["Property ".data ++ sqc ++ prop ++ sqc ++ " ".data ++ max_key
          ++ " decreased from ".data ++ pyStrJson old_max ++ " to ".data ++ pyStrJson new_max]
      else if ¬ check_tightening && jsonNumGt new_max old_max then
        ["Property ".data ++ sqc ++ prop ++ sqc ++ " ".data ++ max_key
          ++ " increased from ".data ++ pyStrJson old_max ++ " to ".data ++ pyStrJson new_max]
      else []
    | none, some new_max =>
      if check_tightening then
        ["Property ".data ++ sqc ++ prop ++ sqc ++ " added ".data ++ max_key
          ++ " constraint: ".data ++ pyStrJson new_max]
      else []
    | some _, none =>
      if ¬ check_tightening then
        ["Property ".data ++ sqc ++ prop ++ sqc ++ " removed ".data ++ max_key
          ++ " constraint".data]
      else []
    | none, none => []
  minPart ++ maxPart

/-- `_check_constraint_compatibility`. -/
def check_constraint_compatibility (prop : Str) (old_prop_schema new_prop_schema : Json)
    (check_tightening : Bool) : List Str :=
  let prop_type := old_prop_schema.get "type".data
  let numeric :=
    if optIsStrVal prop_type "number".data || optIsStrVal prop_type "integer".data then
      check_min_max_constraint prop old_prop_schema new_prop_schema
        "minimum".data "maximum".data check_tightening
    else []
  let stringc :=
    if optIsStrVal prop_type "string".data then
      check_min_max_constraint prop old_prop_schema new_prop_schema
        "minLength".data "maxLength".data check_tightening
    else []
  let arrayc :=
    if optIsStrVal prop_type "array".data then
      check_min_max_constraint prop old_prop_schema new_prop_schema
        "minItems".data "maxItems".data check_tightening
    else []
  numeric ++ stringc ++ arrayc

/-- The common-property loop body of `_check_schema_compatibility`. -/
def checkCommonProp (recCheck : Json → Json → Bool → Bool × List Str) (eqFuel : Nat)
    (check_backward : Bool) (old_props new_props : List (Str × Json)) (prop : Str) :
    List Str :=
  let old_prop_schema := (lookupA old_props prop).getD .null
  let new_prop_schema := (lookupA new_props prop).getD .null
  let old_type := old_prop_schema.get "type".data
  let new_type := new_prop_schema.get "type".data
  let typeErr :=
    match old_type, new_type with
    | some ot, some nt =>
      if jsonTruthy ot && jsonTruthy nt && ¬ jsonEqFuel eqFuel ot nt then
        ["Property ".data ++ sqc ++ prop ++ sqc ++ " type changed from ".data
          ++ pyStrJson ot ++ " to ".data ++ pyStrJson nt]
      else []
    | _, _ => []
  let enumErr :=
    match old_prop_schema.get "enum".data, new_prop_schema.get "enum".data with
    | some (.arr old_enum), some (.arr new_enum) =>
      if jsonTruthy (.arr old_enum) && jsonTruthy (.arr new_enum) then
        let old_set := dedupPrim old_enum
        let new_set := dedupPrim new_enum
        if check_backward then
          let added_vals := new_set.filter fun j => ¬ containsPrim old_set j
          if ¬ added_vals.isEmpty then
            ["Property ".data ++ sqc ++ prop ++ sqc ++ " added enum values: ".data
              ++ pySetRepr added_vals]
          else []
        else
          let removed_vals := old_set.filter fun j => ¬ containsPrim new_set j
          if ¬ removed_vals.isEmpty then
            ["Property ".data ++ sqc ++ prop ++ sqc ++ " removed enum values: ".data
              ++ pySetRepr removed_vals]
          else []
      else []
    | _, _ => []
  let constraintErrs :=
    check_constraint_compatibility prop old_prop_schema new_prop_schema check_backward
  let nestedErrs :=
    if optIsStrVal old_type "object".data && optIsStrVal new_type "object".data then
      let r := recCheck old_prop_schema new_prop_schema check_backward
      if ¬ r.1 then
        r.2.map fun e => "Property ".data ++ sqc ++ prop ++ sqc ++ ": ".data ++ e
      else []
    else []
  typeErr ++ enumErr ++ constraintErrs ++ nestedErrs

/-- The flattened `properties` map (`flat.get("properties", {})`). -/
def flatProps (fuel : Nat) (schema : Json) : List (Str × Json) :=
  match (flatten_schema fuel schema).get "properties".data with
  | some (.obj kvs) => kvs
  | _ => []

/-- The flattened `required` list viewed as a Python set
(`set(flat.get("required", []))`). -/
def flatRequired (fuel : Nat) (schema : Json) : List Json :=
  match (flatten_schema fuel schema).get "required".data with
  | some (.arr xs) => dedupPrim xs
  | _ => []

/-- The rendering `', '.join` applies to a required entry (entries are
strings in any schema Python does not crash on). -/
def requiredJoinName : Json → Str
  | .str s => s
  | other => pyStrJson other

/-- `_check_schema_compatibility` (fuel drives the nested-object recursion;
Python set iteration order is modelled as first-occurrence order, which the
embedded claims never depend on). -/
def check_schema_compatibility (fuel : Nat) (old_schema new_schema : Json)
    (check_backward : Bool) : Bool × List Str :=
  match fuel with
  | 0 => (true, [])
  | f + 1 =>
    let old_props := flatProps (f + 1) old_schema
    let new_props := flatProps (f + 1) new_schema
    let old_required := flatRequired (f + 1) old_schema
    let new_required := flatRequired (f + 1) new_schema
    let requiredErrs :=
      if check_backward then
        let newly_required := new_required.filter fun j => ¬ containsPrim old_required j
        if ¬ newly_required.isEmpty then
          ["Added required properties: ".data
            ++ joinSep ", ".data (newly_required.map requiredJoinName)]
        else []
      else
        let removed_required := old_required.filter fun j => ¬ containsPrim new_required j
        if ¬ removed_required.isEmpty then
          ["Removed required properties: ".data
            ++ joinSep ", ".data (removed_required.map requiredJoinName)]
        else []
    let common_props :=
      (dedupFirst (old_props.map Prod.fst)).filter (hasKeyA new_props)
    let propErrs :=
      (common_props.map
        (checkCommonProp (fun o n cb => check_schema_compatibility f o n cb) (f + 1)
          check_backward old_props new_props)).flatten
    let errors := requiredErrs ++ propErrs
    (errors.isEmpty, errors)

/-- `_check_backward_compatibility`. -/
def check_backward_compatibility (fuel : Nat) (old_schema new_schema : Json) :
    Bool × List Str :=
  check_schema_compatibility fuel old_schema new_schema true

/-- `_check_forward_compatibility`. -/
def check_forward_compatibility (fuel : Nat) (old_schema new_schema : Json) :
    Bool × List Str :=
  check_schema_compatibility fuel old_schema new_schema false

/-- `GtsEntityCastResult.cast`.  The external JSON-Schema validation of step
4 (`_validate_with_gts_id_tolerance`) is abstracted by `validator`, which
receives the casted instance and the `const`-relaxed target schema and
returns the first validation error message, if any.

Note the faithful variable mix-up of the source: the reasons accumulated by
`_cast_instance_to_schema` are bound to a local that is never used, and the
`incompatibility_reasons` field of the result receives the (at most one)
final-validation message instead. -/
def GtsEntityCastResult.cast (fuel : Nat) (validator : Json → Json → Option Str)
    (from_instance_id to_schema_id : Str)
    (from_instance_content from_schema_content to_schema_content : Json) :
    GtsEntityCastResult :=
  let target_schema := flatten_schema fuel to_schema_content
  let direction := infer_direction from_instance_id to_schema_id
  let (old_schema, new_schema) :=
    if direction = "up".data then (from_schema_content, to_schema_content)
    else if direction = "down".data then (to_schema_content, from_schema_content)
    else (from_schema_content, to_schema_content)
  let (is_backward, backward_errors) := check_backward_compatibility fuel old_schema new_schema
  let (is_forward, forward_errors) := check_forward_compatibility fuel old_schema new_schema
  match cast_instance_to_schema fuel
      (match from_instance_content with | .obj kvs => .obj kvs | _ => .obj [])
      target_schema [] with
  | .error e =>
    { from_id := from_instance_id, to_id := to_schema_id, direction := direction,
      added_properties := [], removed_properties := [], changed_properties := [],
      is_fully_compatible := false, is_backward_compatible := is_backward,
      is_forward_compatible := is_forward, incompatibility_reasons := [e],
      backward_errors := backward_errors, forward_errors := forward_errors,
      casted_entity := none }
  | .ok (casted, added, removed, _helper_reasons) =>
    let validation := validator casted (remove_gts_const_constraints fuel to_schema_content)
    let is_fully_compatible := validation.isNone
    let reasons := match validation with | some m => [m] | none => []
    { from_id := from_instance_id, to_id := to_schema_id, direction := direction,
      added_properties := sortStrs (dedupFirst added),
      removed_properties := sortStrs (dedupFirst removed),
      changed_properties := [],
      is_fully_compatible := is_fully_compatible,
      is_backward_compatible := is_backward,
      is_forward_compatible := is_forward,
      incompatibility_reasons := reasons,
      backward_errors := backward_errors, forward_errors := forward_errors,
      casted_entity := some casted }

/-! ### Entity store, schema graph and query engine (`store.py`) -/

/-- One extracted reference `{"id": ..., "sourcePath": ...}`. -/
structure GtsRef where
  id : Str
  sourcePath : Str
deriving Repr, DecidableEq

/-- The `GtsEntity` fields the store operations consume.  `schemaId` is a
string with `[]` playing the role of Python's falsy `None`/`""`. -/
structure GtsEntity where
  gts_id : Option GtsID := none
  is_schema : Bool := false
  content : Json := .null
  gts_refs : List GtsRef := []
  schemaId : Str := []

/-- The registry: the identifier-keyed entity map, in insertion order.  The
on-demand reader fallback of `GtsStore.get` is modelled by pre-populating
the map (the reader serves a finite file set, and a cache-miss fetch simply
inserts the entity before use). -/
abbrev GtsStore := List (Str × GtsEntity)

def storeGet : GtsStore → Str → Option GtsEntity
  | [], _ => none
  | (k, e) :: rest, id => if k = id then some e else storeGet rest id

/-- `GtsStore.is_minor_compatible`. -/
def GtsStore.is_minor_compatible (fuel : Nat) (store : GtsStore)
    (old_schema_id new_schema_id : Str) : GtsEntityCastResult :=
  match storeGet store old_schema_id, storeGet store new_schema_id with
  | some old_entity, some new_entity =>
    let old_schema := match old_entity.content with | .obj kvs => Json.obj kvs | _ => .obj []
    let new_schema := match new_entity.content with | .obj kvs => Json.obj kvs | _ => .obj []
    let (is_backward, backward_errors) := check_backward_compatibility fuel old_schema new_schema
    let (is_forward, forward_errors) := check_forward_compatibility fuel old_schema new_schema
    let direction := infer_direction old_schema_id new_schema_id
    { from_id := old_schema_id, to_id := new_schema_id, direction := direction,
      added_properties := [], removed_properties := [], changed_properties := [],
      is_fully_compatible := is_backward && is_forward,
      is_backward_compatible := is_backward, is_forward_compatible := is_forward,
      incompatibility_reasons := [],
      backward_errors := backward_errors, forward_errors := forward_errors,
      casted_entity := none }
  | _, _ =>
    { from_id := old_schema_id, to_id := new_schema_id, direction := "unknown".data,
      added_properties := [], removed_properties := [], changed_properties := [],
      is_fully_compatible := false, is_backward_compatible := false,
      is_forward_compatible := false,
      incompatibility_reasons := ["Schema not found".data],
      backward_errors := ["Schema not found".data],
      forward_errors := ["Schema not found".data],
      casted_entity := none }

/-- A node of the schema graph: `{"id", "refs", "schema_id", "errors"}`,
where an absent `refs`/`schema_id`/`errors` key is the empty value. -/
inductive GraphNode where
  | mk (id : Str) (refs : List (Str × GraphNode)) (schema_id : Option GraphNode)
       (errors : List Str)

def GraphNode.id : GraphNode → Str
  | .mk i _ _ _ => i

def GraphNode.refs : GraphNode → List (Str × GraphNode)
  | .mk _ r _ _ => r

def GraphNode.schema_id : GraphNode → Option GraphNode
  | .mk _ _ s _ => s

def GraphNode.errors : GraphNode → List Str
  | .mk _ _ _ e => e

/-- A `{"id": gts_id}` leaf. -/
def GraphNode.bare (gts_id : Str) : GraphNode := .mk gts_id [] none []

def isJsonSchemaUrl (s : Str) : Bool :=
  strStarts s "http://json-schema.org".data || strStarts s "https://json-schema.org".data

/-- Python dict assignment for the `refs` map keyed by source path. -/
def insertRef : List (Str × GraphNode) → Str → GraphNode → List (Str × GraphNode)
  | [], k, v => [(k, v)]
  | (k', v') :: rest, k, v =>
    if k' = k then (k, v) :: rest else (k', v') :: insertRef rest k v

/-- The reference loop of `gts2node`; `rec` is the recursion at the next
fuel level, and the threaded `seen` set grows left to right. -/
def gts2listF (rec : Str → List Str → Option (GraphNode × List Str)) (gtsId : Str) :
    List GtsRef → List (Str × GraphNode) → List Str →
    Option (List (Str × GraphNode) × List Str)
  | [], acc, seen => some (acc, seen)
  | r :: rs, acc, seen =>
    if r.id = gtsId then gts2listF rec gtsId rs acc seen
    else if isJsonSchemaUrl r.id then gts2listF rec gtsId rs acc seen
    else
      match rec r.id seen with
      | none => none
      | some (node, seen') => gts2listF rec gtsId rs (insertRef acc r.sourcePath node) seen'

/-- `gts2node` inside `GtsStore.build_schema_graph`, with structural fuel;
`none` is fuel exhaustion (never reached at adequate fuel, see the C7
theorem).  A seen identifier short-circuits to a bare `{id}` leaf; an
unseen one is added to the visited set before expansion. -/
def gts2nodeF (store : GtsStore) : Nat → Str → List Str → Option (GraphNode × List Str)
  | 0, _, _ => none
  | f + 1, gts_id, seen =>
    if seen.contains gts_id then some (GraphNode.bare gts_id, seen)
    else
      let seen1 := gts_id :: seen
      match storeGet store gts_id with
      | some entity =>
        match gts2listF (gts2nodeF store f) gts_id entity.gts_refs [] seen1 with
        | none => none
        | some (refs, seen2) =>
          if entity.schemaId ≠ [] then
            if ¬ isJsonSchemaUrl entity.schemaId then
              match gts2nodeF store f entity.schemaId seen2 with
              | none => none
              | some (snode, seen3) => some (.mk gts_id refs (some snode) [], seen3)
            else some (.mk gts_id refs none [], seen2)
          else some (.mk gts_id refs none ["Schema not recognized".data], seen2)
      | none => some (.mk gts_id [] none ["Entity not found".data], seen1)

/-- `GtsStore.build_schema_graph`. -/
def GtsStore.build_schema_graph (store : GtsStore) (fuel : Nat) (gts_id : Str) :
    Option GraphNode :=
  (gts2nodeF store fuel gts_id []).map Prod.fst

/-- Python `str.partition(c)` (the separator is dropped; for our callers an
absent separator and an empty tail are equivalent). -/
def partitionChar (c : Char) : Str → Str × Str
  | [] => ([], [])
  | x :: xs =>
    if x = c then ([], xs)
    else
      let r := partitionChar c xs
      (x :: r.1, r.2)

/-- Python `s.rsplit("]", 1)[0]`. -/
def dropAfterLastClose (l : Str) : Str :=
  if l.contains ']' then
    l.take (l.length - (l.reverse.takeWhile (· ≠ ']')).length - 1)
  else l

/-- Python `s.strip(ch)` for a single strip character. -/
def stripCharEnds (ch : Char) (l : Str) : Str :=
  ((l.dropWhile (· = ch)).reverse.dropWhile (· = ch)).reverse

def insertStrA : List (Str × Str) → Str → Str → List (Str × Str)
  | [], k, v => [(k, v)]
  | (k', v') :: rest, k, v =>
    if k' = k then (k, v) :: rest else (k', v') :: insertStrA rest k v

/-- `GtsStore._parse_query_filters`. -/
def parse_query_filters (filter_str : Str) : List (Str × Str) :=
  if filter_str = [] then []
  else
    ((splitOnChar ',' filter_str).map pyStrip).foldl
      (fun filters part =>
        if part.contains '=' then
          let kv := partitionChar '=' part
          let v := stripCharEnds (Char.ofNat 39) (stripCharEnds '"' (pyStrip kv.2))
          insertStrA filters (pyStrip kv.1) v
        else filters)
      []

/-- `GtsStore._validate_query_pattern`: returns
`(wildcard_pattern, exact_gts_id, error_message)`. -/
def validate_query_pattern (base_pattern : Str) (is_wildcard : Bool) :
    Option GtsID × Option GtsID × Str :=
  if is_wildcard then
    if ¬ (strEnds base_pattern ".*".data || strEnds base_pattern "~*".data) then
      (none, none, "Invalid query: wildcard patterns must end with .* or ~*".data)
    else
      match GtsWildcard.init base_pattern with
      | .ok w => (some w, none, [])
      | .error e => (none, none, "Invalid query: ".data ++ renderGtsError e)
  else
    match GtsID.init base_pattern with
    | .ok g =>
      if g.gts_id_segments.isEmpty then
        (none, none, "Invalid query: GTS ID has no valid segments".data)
      else (none, some g, [])
    | .error e => (none, none, "Invalid query: ".data ++ renderGtsError e)

/-- `GtsStore._matches_id_pattern`. -/
def matches_id_pattern (entity_id : GtsID) (base_pattern : Str) (is_wildcard : Bool)
    (wildcard_pattern exact_gts_id : Option GtsID) : Bool :=
  match is_wildcard, wildcard_pattern with
  | true, some w => entity_id.wildcard_match w
  | _, _ =>
    match exact_gts_id with
    | some _ =>
      (match GtsWildcard.init base_pattern with
       | .ok pw => entity_id.wildcard_match pw
       | .error _ => entity_id.id == base_pattern)
    | none => entity_id.id == base_pattern

/-- `GtsStore._matches_filters` (`str(value)` of containers is abstracted; no
embedded claim depends on it). -/
def matches_filters (entity_content : Json) (filters : List (Str × Str)) : Bool :=
  filters.all fun kv =>
    let entity_value :=
      match entity_content.get kv.1 with
      | some j => pyStrJson j
      | none => []
    if kv.2 == "*".data then
      !(entity_value == [] || entity_value == "None".data)
    else entity_value == kv.2

/-- The result object `GtsStoreQueryResult`. -/
structure GtsStoreQueryResult where
  error : Str := []
  count : Nat := 0
  limit : Nat := 0
  results : List Json := []

/-- The entity loop of `GtsStore.query` (registry iteration order, stopping
at `limit` collected results). -/
def queryLoop (base_pattern : Str) (is_wildcard : Bool)
    (wildcard_pattern exact_gts_id : Option GtsID) (filters : List (Str × Str))
    (limit : Nat) : List GtsEntity → List Json → List Json
  | [], acc => acc
  | e :: es, acc =>
    if limit ≤ acc.length then acc
    else
      match e.content, e.gts_id with
      | .obj kvs, some gid =>
        if ¬ matches_id_pattern gid base_pattern is_wildcard wildcard_pattern exact_gts_id then
          queryLoop base_pattern is_wildcard wildcard_pattern exact_gts_id filters limit es acc
        else if ¬ matches_filters (.obj kvs) filters then
          queryLoop base_pattern is_wildcard wildcard_pattern exact_gts_id filters limit es acc
        else
          queryLoop base_pattern is_wildcard wildcard_pattern exact_gts_id filters limit es
            (acc ++ [Json.obj kvs])
      | _, _ =>
        queryLoop base_pattern is_wildcard wildcard_pattern exact_gts_id filters limit es acc

/-- `GtsStore.query`. -/
def GtsStore.query (store : GtsStore) (expr : Str) (limit : Nat) : GtsStoreQueryResult :=
  let bf := partitionChar '[' expr
  let base_pattern := pyStrip bf.1
  let is_wildcard := base_pattern.contains '*'
  let filter_str := if bf.2 ≠ [] then dropAfterLastClose bf.2 else []
  let filters := parse_query_filters filter_str
  let vqp := validate_query_pattern base_pattern is_wildcard
  if vqp.2.2 ≠ [] then
    { error := vqp.2.2, count := 0, limit := limit, results := [] }
  else
    let results := queryLoop base_pattern is_wildcard vqp.1 vqp.2.1 filters limit
      (store.map Prod.snd) []
    { error := [], count := results.length, limit := limit, results := results }

/-! ### Supporting lemmas -/

/-- A string ending in the one-character suffix `[c]` contains `c`. -/
theorem contains_of_strEnds_single {l : Str} {c : Char}
    (h : strEnds l [c] = true) : l.contains c = true := by
  cases hrev : l.reverse with
  | nil => rw [strEnds, hrev] at h; exact absurd h (by simp [strStarts])
  | cons x xs =>
    rw [strEnds, hrev] at h
    have hx : x = c := by
      by_contra hne
      simp [strStarts, hne] at h
    have hmem : c ∈ l := by
      have hmemr : c ∈ l.reverse := by rw [hrev, hx]; exact List.mem_cons_self _ _
      simpa using hmemr
    exact List.elem_eq_true_of_mem hmem

/-! ### Claim theorems -/

/-- Claim C9: resolving the empty path returns the root content unchanged
with `resolved = true`, and resolving an out-of-range list index such as
`items[5]` against `{"items": ["a", "b"]}` yields `resolved = false` with an
out-of-range error message instead of raising. -/
theorem C9_theorem :
    (∀ (fuel : Nat) (gid : Str) (content : Json),
        (GtsPathResolver.resolve fuel gid content []).value = content
      ∧ (GtsPathResolver.resolve fuel gid content []).resolved = true
      ∧ (GtsPathResolver.resolve fuel gid content []).error = none)
  ∧ ((GtsPathResolver.resolve 20 "x".data
        (Json.obj [("items".data, .arr [.str "a".data, .str "b".data])])
        "items[5]".data).resolved = false
    ∧ (GtsPathResolver.resolve 20 "x".data
        (Json.obj [("items".data, .arr [.str "a".data, .str "b".data])])
        "items[5]".data).error
      = some ("Index out of range at segment ".data ++ sqc ++ "[5]".data ++ sqc)) := by
  refine ⟨fun fuel gid content => ⟨rfl, rfl, rfl⟩, rfl, by decide⟩

/-- Claim C2 counterexample: for the bare (no `*`) pattern
`gts.a.b.c.d.v1~`, instance-side validation also accepts the strictly
longer identifier `gts.a.b.c.d.v1~a.b.c.d.v1` (a prefix match), refuting
"accepts the value only if it is exactly equal to the pattern". -/
theorem C2_counterexample :
    validate_gts_pattern none "gts.a.b.c.d.v1~a.b.c.d.v1".data
      "gts.a.b.c.d.v1~".data "f".data = none
  ∧ GtsID.is_valid "gts.a.b.c.d.v1~a.b.c.d.v1".data = true
  ∧ ("gts.a.b.c.d.v1~".data).contains '*' = false
  ∧ "gts.a.b.c.d.v1~a.b.c.d.v1".data ≠ "gts.a.b.c.d.v1~".data := by
  refine ⟨by decide, by decide, by decide, by decide⟩

/-- Claim C2 (amended): with no registry supplied, `_validate_gts_pattern`
accepts a value against a bare pattern (no `*`) iff the value is a valid
GTS identifier and *starts with* the pattern (a prefix match, not exact
equality); for a `*`-suffixed pattern iff the value starts with the pattern
minus its `*`; and for `gts.*` iff the value is any valid GTS identifier. -/
theorem C2_theorem :
    (∀ (value pattern field_path : Str), pattern.contains '*' = false →
      (validate_gts_pattern none value pattern field_path = none
        ↔ GtsID.is_valid value = true ∧ strStarts value pattern = true))
  ∧ (∀ (value pattern field_path : Str),
      strEnds pattern ['*'] = true → pattern ≠ "gts.*".data →
      (validate_gts_pattern none value pattern field_path = none
        ↔ GtsID.is_valid value = true ∧ strStarts value pattern.dropLast = true))
  ∧ (∀ (value field_path : Str),
      (validate_gts_pattern none value "gts.*".data field_path = none
        ↔ GtsID.is_valid value = true)) := by
  refine ⟨?part1, ?part2, ?part3⟩
  case part1 =>
    intro v p fp hnc
    have hne : p ≠ "gts.*".data := by
      intro heq; rw [heq] at hnc; exact absurd hnc (by decide)
    have hends : strEnds p ['*'] = false := by
      cases hE : strEnds p ['*'] with
      | false => rfl
      | true =>
        exact absurd hnc (by
          simp only [contains_of_strEnds_single hE]
          decide)
    cases hv : GtsID.is_valid v with
    | false => simp [validate_gts_pattern, hv]
    | true =>
      cases hs : strStarts v p <;>
        simp [validate_gts_pattern, hv, hne, hends, hs]
  case part2 =>
    intro v p fp hends hne
    cases hv : GtsID.is_valid v with
    | false => simp [validate_gts_pattern, hv]
    | true =>
      cases hs : strStarts v p.dropLast <;>
        simp [validate_gts_pattern, hv, hne, hends, hs]
  case part3 =>
    intro v fp
    cases hv : GtsID.is_valid v with
    | false => simp [validate_gts_pattern, hv]
    | true => simp [validate_gts_pattern, hv]

/-- Witness for C2: each branch of the amended claim evaluated at a
concrete accepting input. -/
theorem C2_witness :
    validate_gts_pattern none "gts.a.b.c.d.v1~".data "gts.a.b.c.d.v1~".data "f".data = none
  ∧ validate_gts_pattern none "gts.a.b.c.d.v1~".data "gts.a.b.*".data "f".data = none
  ∧ validate_gts_pattern none "gts.a.b.c.d.v1~".data "gts.*".data "f".data = none := by
  refine ⟨(C2_theorem.1 _ _ _ (by decide)).mpr ⟨by decide, by decide⟩,
    (C2_theorem.2.1 _ _ _ (by decide) (by decide)).mpr ⟨by decide, by decide⟩,
    (C2_theorem.2.2 _ _).mpr (by decide)⟩

/-- Claim C3: in segment matching, a non-wildcard pattern segment without a
minor version matches a candidate segment iff vendor, package, namespace,
type, major version and the type flag agree — any candidate minor version
is accepted; in particular `gts.a.b.c.d.v1.5~` matches the wildcard pattern
`gts.a.b.c.d.v1~` while `gts.a.b.c.d.v2~` does not. -/
theorem C3_theorem :
    (∀ (p c : GtsIdSegment), p.is_wildcard = false → p.ver_minor = none →
      (match_segments [p] [c] = true
        ↔ p.vendor = c.vendor ∧ p.package = c.package ∧ p.nspace = c.nspace
          ∧ p.type = c.type ∧ p.ver_major = c.ver_major ∧ p.is_type = c.is_type))
  ∧ ((GtsID.init "gts.a.b.c.d.v1.5~".data).toOption.bind (fun cand =>
       (GtsWildcard.init "gts.a.b.c.d.v1~".data).toOption.map (fun pat =>
         cand.wildcard_match pat)) = some true)
  ∧ ((GtsID.init "gts.a.b.c.d.v2~".data).toOption.bind (fun cand =>
       (GtsWildcard.init "gts.a.b.c.d.v1~".data).toOption.map (fun pat =>
         cand.wildcard_match pat)) = some false) := by
  refine ⟨?general, by decide, by decide⟩
  intro p c hw hm
  unfold match_segments match_segments_go
  simp only [hw, hm, Option.isSome_none, Bool.false_and, List.length_cons,
    List.length_nil, gt_iff_lt, if_false]
  split_ifs with h1 h2 h3 h4 h5 h6 h7 <;> simp_all [match_segments_go]

/-- Witness for C3's general part at concrete equal-but-for-minor
segments. -/
theorem C3_witness :
    (match_segments
      [{ num := 1, offset := 4, segment := "a.b.c.d.v1~".data, vendor := "a".data,
         package := "b".data, nspace := "c".data, type := "d".data, ver_major := 1,
         ver_minor := none, is_type := true, is_wildcard := false }]
      [{ num := 1, offset := 4, segment := "a.b.c.d.v1.5~".data, vendor := "a".data,
         package := "b".data, nspace := "c".data, type := "d".data, ver_major := 1,
         ver_minor := some 5, is_type := true, is_wildcard := false }]) = true := by
  exact (C3_theorem.1 _ _ rfl rfl).mpr ⟨rfl, rfl, rfl, rfl, rfl, rfl⟩

/-- Claim C8: a query whose base pattern contains `*` but ends in neither
`.*` nor `~*` returns an error result with the descriptive message and an
empty results list (no entity is evaluated); when pattern validation
passes, the query reports no error and `count` is the number of returned
results. -/
theorem C8_theorem :
    (∀ (store : GtsStore) (expr : Str) (limit : Nat),
      (pyStrip (partitionChar '[' expr).1).contains '*' = true →
      strEnds (pyStrip (partitionChar '[' expr).1) ".*".data = false →
      strEnds (pyStrip (partitionChar '[' expr).1) "~*".data = false →
      (GtsStore.query store expr limit).error
        = "Invalid query: wildcard patterns must end with .* or ~*".data
      ∧ (GtsStore.query store expr limit).results = [])
  ∧ (∀ (store : GtsStore) (expr : Str) (limit : Nat),
      (validate_query_pattern (pyStrip (partitionChar '[' expr).1)
        ((pyStrip (partitionChar '[' expr).1).contains '*')).2.2 = [] →
      (GtsStore.query store expr limit).error = []
      ∧ (GtsStore.query store expr limit).count
          = (GtsStore.query store expr limit).results.length) := by
  constructor
  · intro store expr limit h1 h2 h3
    unfold GtsStore.query
    simp only [h1, h2, h3, validate_query_pattern, Bool.or_self, Bool.not_false, if_true,
      Bool.false_eq_true, not_false_eq_true]
    rw [if_pos (by decide : ("Invalid query: wildcard patterns must end with .* or ~*".data
      : Str) ≠ [])]
    exact ⟨rfl, rfl⟩
  · intro store expr limit hok
    unfold GtsStore.query
    simp only [hok, ne_eq, not_true_eq_false, if_false]
    exact ⟨trivial, trivial⟩

/-- Witness for C8: the malformed pattern
`gts.vendor.package.namespace.user.v1~alice*` is rejected with the message
and yields no results, and a well-formed wildcard query reports no error. -/
theorem C8_witness :
    ((GtsStore.query [] "gts.vendor.package.namespace.user.v1~alice*".data 100).error
      = "Invalid query: wildcard patterns must end with .* or ~*".data
    ∧ (GtsStore.query [] "gts.vendor.package.namespace.user.v1~alice*".data 100).results = [])
  ∧ ((GtsStore.query [] "gts.vendor.package.*".data 100).error = []
    ∧ (GtsStore.query [] "gts.vendor.package.*".data 100).count
        = (GtsStore.query [] "gts.vendor.package.*".data 100).results.length) := by
  exact ⟨C8_theorem.1 [] _ 100 (by decide) (by decide) (by decide),
    C8_theorem.2 [] _ 100 (by decide)⟩

/-- C1: the instance `{"a": {}}` to be cast. -/
def c1_instance : Json := .obj [("a".data, .obj [])]

/-- C1: target schema requiring `a` (an object that itself requires `b`
with no default). -/
def c1_to_schema : Json := .obj [
  ("properties".data, .obj [("a".data, .obj [
     ("type".data, .str "object".data),
     ("properties".data, .obj [("b".data, .obj [("type".data, .str "string".data)])]),
     ("required".data, .arr [.str "b".data])])]),
  ("required".data, .arr [.str "a".data])]

/-- C1: the reason `_cast_instance_to_schema` records (path-prefixed). -/
def c1_recorded : Str := missingRequiredMsg "a.b".data

/-- C1: the shape of the external validator's first-error message for the
missing nested required property (it names `b`, not the path `a.b`). -/
def c1_validator_msg : Str := sqc ++ "b".data ++ sqc ++ " is a required property".data

/-- Claim C1 (code bug witnessed): on an instance missing a nested required
property without default, `_cast_instance_to_schema` does record the
path-prefixed incompatibility reason and the cast does not abort — but
`cast` binds the helper's reasons to an unused local and populates
`incompatibility_reasons` from the final-validation message alone, so the
recorded reason never reaches the returned `CastResult` (for every possible
validator verdict), while the other result fields are populated. -/
theorem C1_theorem :
    (cast_instance_to_schema 5 c1_instance (flatten_schema 5 c1_to_schema) []
      = .ok (c1_instance, [], [], [c1_recorded]))
  ∧ (∀ (v : Json → Json → Option Str),
      (GtsEntityCastResult.cast 5 v "gts.v.p.n.t.v1~v.p.n.i.v1".data
         "gts.v.p.n.t.v1~".data c1_instance (.obj []) c1_to_schema).incompatibility_reasons
        = (match v c1_instance (remove_gts_const_constraints 5 c1_to_schema) with
           | some m => [m] | none => []))
  ∧ ((GtsEntityCastResult.cast 5 (fun _ _ => some c1_validator_msg)
        "gts.v.p.n.t.v1~v.p.n.i.v1".data "gts.v.p.n.t.v1~".data
        c1_instance (.obj []) c1_to_schema).incompatibility_reasons = [c1_validator_msg]
    ∧ ([c1_validator_msg].contains c1_recorded = false)
    ∧ (GtsEntityCastResult.cast 5 (fun _ _ => some c1_validator_msg)
        "gts.v.p.n.t.v1~v.p.n.i.v1".data "gts.v.p.n.t.v1~".data
        c1_instance (.obj []) c1_to_schema).casted_entity = some c1_instance
    ∧ (GtsEntityCastResult.cast 5 (fun _ _ => some c1_validator_msg)
        "gts.v.p.n.t.v1~v.p.n.i.v1".data "gts.v.p.n.t.v1~".data
        c1_instance (.obj []) c1_to_schema).direction = "unknown".data
    ∧ (GtsEntityCastResult.cast 5 (fun _ _ => some c1_validator_msg)
        "gts.v.p.n.t.v1~v.p.n.i.v1".data "gts.v.p.n.t.v1~".data
        c1_instance (.obj []) c1_to_schema).is_fully_compatible = false) := by
  refine ⟨rfl, fun v => rfl, rfl, by decide, rfl, rfl, rfl⟩

/-- Claim C10 counterexample: for the input `" gts.a.b.c.d.v1~"` (leading
space), constructing the identifier succeeds (the constructor strips
whitespace first) but `is_valid` returns `false` (its prefix pre-check runs
on the unstripped string), refuting the claimed equivalence. -/
theorem C10_counterexample :
    GtsID.is_valid " gts.a.b.c.d.v1~".data = false
  ∧ (GtsID.init " gts.a.b.c.d.v1~".data).isOk = true := by
  exact ⟨by decide, by decide⟩

/-- Successful construction implies the normalized string carries the
`gts.` structural prefix. -/
theorem init_ok_prefix (s : Str) (g : GtsID) (h : GtsID.init s = .ok g) :
    strStarts (if strStarts (pyStrip s) gtsUriPrefix then
      (pyStrip s).drop gtsUriPrefix.length else pyStrip s) gtsPrefix = true := by
  simp only [GtsID.init] at h
  by_cases hu : strStarts (pyStrip s) gtsUriPrefix = true
  · simp only [if_pos hu] at h ⊢
    split at h
    · exact Except.noConfusion h
    · split at h
      · exact Except.noConfusion h
      · split at h
        · exact Except.noConfusion h
        · rename_i hgood
          simpa using hgood
  · simp only [if_neg hu] at h ⊢
    split at h
    · exact Except.noConfusion h
    · split at h
      · exact Except.noConfusion h
      · split at h
        · exact Except.noConfusion h
        · rename_i hgood
          simpa using hgood

/-- Claim C10 (amended): `is_valid` is total (the embedding returns a `Bool`
for every string, mirroring the source's catch-all `except`), and for every
input that is unchanged by `strip` — in particular every input without
leading whitespace before the (optional `gts://`-prefixed) identifier —
`is_valid` returns `true` exactly when construction succeeds. -/
theorem C10_theorem : ∀ (s : Str), pyStrip s = s →
    (GtsID.is_valid s = true ↔ (GtsID.init s).isOk = true) := by
  intro s hstrip
  constructor
  · intro h
    cases hinit : GtsID.init s with
    | ok g => rfl
    | error e =>
      exfalso
      unfold GtsID.is_valid at h
      rw [hinit] at h
      simp at h
  · intro hok
    cases hinit : GtsID.init s with
    | ok g =>
      have hpre := init_ok_prefix s g hinit
      rw [hstrip] at hpre
      simp [GtsID.is_valid, hpre, hinit]
    | error e => rw [hinit] at hok; simp [Except.isOk, Except.toBool] at hok

/-- Witness for C10 at a well-formed stripped input. -/
theorem C10_witness : GtsID.is_valid "gts.a.b.c.d.v1~".data = true :=
  (C10_theorem _ (by decide)).mpr (by decide)

theorem strHasSub_of_strStarts {l p : Str} (h : strStarts l p = true) :
    strHasSub l p = true := by
  unfold strHasSub; rw [if_pos h]

theorem strHasSub_cons {t p : Str} (c : Char) (h : strHasSub t p = true) :
    strHasSub (c :: t) p = true := by
  unfold strHasSub
  split
  · rfl
  · exact h

theorem strHasSub_append_left (a : Str) {b p : Str} (h : strHasSub b p = true) :
    strHasSub (a ++ b) p = true := by
  induction a with
  | nil => simpa using h
  | cons c cs ih => exact strHasSub_cons c ih

theorem strStarts_nil (l : Str) : strStarts l [] = true := by
  cases l <;> rfl

theorem strStarts_append_self (p rest : Str) : strStarts (p ++ rest) p = true := by
  induction p with
  | nil => simpa using strStarts_nil rest
  | cons c cs ih => simp [strStarts, ih]

theorem joinSep_cons₂ (sep x : Str) (y : Str) (ys : List Str) :
    joinSep sep (x :: y :: ys) = x ++ (sep ++ joinSep sep (y :: ys)) := by
  simp [joinSep, List.append_assoc]

/-- Every element of a joined list occurs as a substring of the join. -/
theorem strHasSub_joinSep {names : List Str} {p : Str} (sep : Str) (h : p ∈ names) :
    strHasSub (joinSep sep names) p = true := by
  induction names with
  | nil => cases h
  | cons x xs ih =>
    cases h with
    | head =>
      cases xs with
      | nil => exact strHasSub_of_strStarts (by simpa using strStarts_append_self p [])
      | cons y ys =>
        rw [joinSep_cons₂]
        exact strHasSub_of_strStarts (strStarts_append_self p _)
    | tail _ hmem =>
      cases xs with
      | nil => cases hmem
      | cons y ys =>
        rw [joinSep_cons₂]
        exact strHasSub_append_left x (strHasSub_append_left sep (ih hmem))

/-- When the flattened new schema has required entries absent from the old
one, the backward check fails and its error list carries the joined
"Added required properties" message. -/
theorem check_backward_newly_required (fuel : Nat) (old_schema new_schema : Json)
    (hne : ((flatRequired (fuel + 1) new_schema).filter
      (fun j => ¬ containsPrim (flatRequired (fuel + 1) old_schema) j)) ≠ []) :
    (check_backward_compatibility (fuel + 1) old_schema new_schema).1 = false
    ∧ ("Added required properties: ".data ++ joinSep ", ".data
        (((flatRequired (fuel + 1) new_schema).filter
          (fun j => ¬ containsPrim (flatRequired (fuel + 1) old_schema) j)).map
            requiredJoinName))
      ∈ (check_backward_compatibility (fuel + 1) old_schema new_schema).2 := by
  have hE : ((flatRequired (fuel + 1) new_schema).filter
      (fun j => ¬ containsPrim (flatRequired (fuel + 1) old_schema) j)).isEmpty = false := by
    cases hL : ((flatRequired (fuel + 1) new_schema).filter
        (fun j => ¬ containsPrim (flatRequired (fuel + 1) old_schema) j)) with
    | nil => exact absurd hL hne
    | cons a as => rfl
  unfold check_backward_compatibility check_schema_compatibility
  simp only [hE, Bool.not_false, if_true, if_pos]
  constructor
  · simp
  · exact List.mem_cons_self _ _

/-- Claim C5: when the flattened required set of the new schema strictly
contains the old one (some flattened-required entry of the new schema is
absent from the old), `is_minor_compatible` reports
`is_backward_compatible = false` and its backward error list contains a
reason naming each newly required property. -/
theorem C5_theorem :
    ∀ (fuel : Nat) (store : GtsStore) (old_id new_id : Str) (old_e new_e : GtsEntity)
      (old_kvs new_kvs : List (Str × Json)),
      storeGet store old_id = some old_e →
      storeGet store new_id = some new_e →
      old_e.content = .obj old_kvs →
      new_e.content = .obj new_kvs →
      ((flatRequired (fuel + 1) (.obj new_kvs)).filter
        (fun j => ¬ containsPrim (flatRequired (fuel + 1) (.obj old_kvs)) j)) ≠ [] →
      (GtsStore.is_minor_compatible (fuel + 1) store old_id new_id).is_backward_compatible
        = false
      ∧ ∀ (name : Str),
          Json.str name ∈ ((flatRequired (fuel + 1) (.obj new_kvs)).filter
            (fun j => ¬ containsPrim (flatRequired (fuel + 1) (.obj old_kvs)) j)) →
          ∃ e ∈ (GtsStore.is_minor_compatible (fuel + 1) store old_id new_id).backward_errors,
            strHasSub e name = true := by
  intro fuel store old_id new_id old_e new_e old_kvs new_kvs hgo hgn hco hcn hne
  have hb := check_backward_newly_required fuel (.obj old_kvs) (.obj new_kvs) hne
  have hback : (GtsStore.is_minor_compatible (fuel + 1) store old_id new_id).is_backward_compatible
      = (check_backward_compatibility (fuel + 1) (.obj old_kvs) (.obj new_kvs)).1 := by
    unfold GtsStore.is_minor_compatible
    rw [hgo, hgn]
    simp only [hco, hcn]
  have herrs : (GtsStore.is_minor_compatible (fuel + 1) store old_id new_id).backward_errors
      = (check_backward_compatibility (fuel + 1) (.obj old_kvs) (.obj new_kvs)).2 := by
    unfold GtsStore.is_minor_compatible
    rw [hgo, hgn]
    simp only [hco, hcn]
  refine ⟨by rw [hback]; exact hb.1, ?_⟩
  intro name hmem
  refine ⟨"Added required properties: ".data ++ joinSep ", ".data
    (((flatRequired (fuel + 1) (.obj new_kvs)).filter
      (fun j => ¬ containsPrim (flatRequired (fuel + 1) (.obj old_kvs)) j)).map
        requiredJoinName), ?_, ?_⟩
  · rw [herrs]; exact hb.2
  · exact strHasSub_append_left _
      (strHasSub_joinSep _ (List.mem_map_of_mem requiredJoinName hmem))

/-- C5: old schema requiring `{name}`. -/
def c5_old_schema : Json := .obj [
  ("properties".data, .obj [("name".data, .obj [("type".data, .str "string".data)])]),
  ("required".data, .arr [.str "name".data])]

/-- C5: new schema requiring `{name, email}` with no default for `email`. -/
def c5_new_schema : Json := .obj [
  ("properties".data, .obj [
    ("name".data, .obj [("type".data, .str "string".data)]),
    ("email".data, .obj [("type".data, .str "string".data)])]),
  ("required".data, .arr [.str "name".data, .str "email".data])]

def c5_store : GtsStore :=
  [("gts.a.b.c.t.v1.0~".data, { content := c5_old_schema, is_schema := true }),
   ("gts.a.b.c.t.v1.1~".data, { content := c5_new_schema, is_schema := true })]

/-- Witness for C5 at the spec's `{name}` vs `{name, email}` example. -/
theorem C5_witness :
    (GtsStore.is_minor_compatible 5 c5_store "gts.a.b.c.t.v1.0~".data
      "gts.a.b.c.t.v1.1~".data).is_backward_compatible = false
    ∧ ∃ e ∈ (GtsStore.is_minor_compatible 5 c5_store "gts.a.b.c.t.v1.0~".data
        "gts.a.b.c.t.v1.1~".data).backward_errors,
        strHasSub e "email".data = true := by
  have h := C5_theorem 4 c5_store "gts.a.b.c.t.v1.0~".data "gts.a.b.c.t.v1.1~".data
    _ _ _ _ rfl rfl rfl rfl (by intro hnil; exact List.noConfusion hnil)
  exact ⟨h.1, h.2 "email".data (List.Mem.head _)⟩

/-! ### Association-list lemmas for the cast invariants -/

theorem lookupA_insertA_self (l : List (Str × Json)) (k : Str) (v : Json) :
    lookupA (insertA l k v) k = some v := by
  induction l with
  | nil => simp [insertA, lookupA]
  | cons kv rest ih =>
    by_cases h : kv.1 = k
    · simp [insertA, h, lookupA]
    · simp [insertA, h, lookupA, ih]

theorem lookupA_insertA_ne (l : List (Str × Json)) {k p : Str} (v : Json) (h : k ≠ p) :
    lookupA (insertA l k v) p = lookupA l p := by
  induction l with
  | nil => simp [insertA, lookupA, h]
  | cons kv rest ih =>
    by_cases hk : kv.1 = k
    · simp [insertA, hk, lookupA, h]
    · simp [insertA, hk, lookupA, ih]

theorem lookupA_eraseA_ne (l : List (Str × Json)) {k p : Str} (h : k ≠ p) :
    lookupA (eraseA l k) p = lookupA l p := by
  induction l with
  | nil => simp [eraseA, lookupA]
  | cons kv rest ih =>
    by_cases hk : kv.1 = k
    · rw [eraseA, if_pos hk, lookupA, if_neg]
      rw [hk]; exact h
    · simp [eraseA, hk, lookupA, ih]

theorem hasKeyA_of_lookupA {l : List (Str × Json)} {k : Str} {v : Json}
    (h : lookupA l k = some v) : hasKeyA l k = true := by
  unfold hasKeyA; rw [h]; rfl

theorem hasKeyA_insertA_ne (l : List (Str × Json)) {k p : Str} (v : Json) (h : k ≠ p) :
    hasKeyA (insertA l k v) p = hasKeyA l p := by
  unfold hasKeyA; rw [lookupA_insertA_ne l v h]

/-- With duplicate-free keys (Python dicts), list membership determines
lookup. -/
theorem lookupA_of_mem_nodup {l : List (Str × Json)} {k : Str} {v : Json}
    (hn : (l.map Prod.fst).Nodup) (hm : (k, v) ∈ l) : lookupA l k = some v := by
  induction l with
  | nil => cases hm
  | cons kv rest ih =>
    cases hm with
    | head => simp [lookupA]
    | tail _ hmem =>
      have hk : kv.1 ≠ k := by
        intro he
        have : k ∈ rest.map Prod.fst := List.mem_map.mpr ⟨(k, v), hmem, rfl⟩
        rw [List.map_cons] at hn
        exact (List.nodup_cons.mp hn).1 (he ▸ this)
      rw [lookupA, if_neg hk]
      exact ih (List.nodup_cons.mp (by rw [List.map_cons] at hn; exact hn)).2 hmem

/-- `jsonPrimEq` against a string pins the value. -/
theorem eq_str_of_jsonPrimEq {j : Json} {s : Str} (h : jsonPrimEq j (.str s) = true) :
    j = .str s := by
  cases j <;> simp [jsonPrimEq] at h ⊢
  exact h

/-- `containsPrim l (.str s)` means `.str s` is literally a member. -/
theorem mem_of_containsPrim_str {l : List Json} {s : Str}
    (h : containsPrim l (.str s) = true) : Json.str s ∈ l := by
  unfold containsPrim at h
  rw [List.any_eq_true] at h
  obtain ⟨j, hj, he⟩ := h
  exact (eq_str_of_jsonPrimEq he) ▸ hj

/-- A nested cast recursion that cannot fail on objects makes the items
loop total. -/
theorem castItems_ok (rec : Json → Json → Str → Except Str (Json × List Str × List Str × List Str))
    (hrec : ∀ kvs schema bp, ∃ t, rec (.obj kvs) schema bp = .ok t) :
    ∀ (items : List (Nat × Json)) (nschema : Json) (ibase : Str)
      (acc : List Json × List Str × List Str × List Str),
      ∃ t, castItems rec nschema ibase items acc = .ok t := by
  intro items
  induction items with
  | nil => intro nschema ibase acc; exact ⟨acc, rfl⟩
  | cons iv rest ih =>
    intro nschema ibase acc
    obtain ⟨idx, item⟩ := iv
    obtain ⟨out, added, removed, reasons⟩ := acc
    cases item with
    | obj kvs =>
      obtain ⟨t, ht⟩ := hrec kvs nschema (ibase ++ ['['] ++ natToChars idx ++ [']'])
      obtain ⟨ni, na, nr, ns⟩ := t
      rw [castItems, ht]
      exact ih nschema ibase _
    | null => exact ih nschema ibase _
    | bool b => exact ih nschema ibase _
    | num n => exact ih nschema ibase _
    | str s => exact ih nschema ibase _
    | arr xs => exact ih nschema ibase _

/-- Step 4 is total when the nested recursion is total on objects. -/
theorem castStep4_ok (rec : Json → Json → Str → Except Str (Json × List Str × List Str × List Str))
    (hrec : ∀ kvs schema bp, ∃ t, rec (.obj kvs) schema bp = .ok t) :
    ∀ (pairs : List (Str × Json)) (bp : Str)
      (acc : List (Str × Json) × List Str × List Str × List Str),
      ∃ t, castStep4 rec bp pairs acc = .ok t := by
  intro pairs
  induction pairs with
  | nil => intro bp acc; exact ⟨acc, rfl⟩
  | cons qs rest ih =>
    intro bp acc
    obtain ⟨q, sch⟩ := qs
    obtain ⟨r, a, rm, rs⟩ := acc
    cases hl : lookupA r q with
    | none => simp only [castStep4, hl]; exact ih bp _
    | some val =>
      cases sch with
      | obj pkvs =>
        cases val with
        | obj vkvs =>
          cases hty : optIsStrVal (lookupA pkvs "type".data) "object".data with
          | true =>
            obtain ⟨t, ht⟩ := hrec vkvs (effective_object_schema (.obj pkvs)) (castPath bp q)
            obtain ⟨ni, na, nr, ns⟩ := t
            simp only [castStep4, hl, hty, Bool.and_true, Bool.true_and, if_true, ht]
            exact ih bp _
          | false =>
            simp only [castStep4, hl, hty, Bool.and_true, Bool.and_false,
              Bool.false_and, if_false]
            exact ih bp _
        | arr items =>
          cases hty2 : optIsStrVal (lookupA pkvs "type".data) "array".data with
          | true =>
            cases hitems : lookupA pkvs "items".data with
            | none =>
              simp only [castStep4, hl, hty2, hitems, Bool.and_true, Bool.and_false,
                Bool.false_and, if_false, Bool.true_and, if_true]
              exact ih bp _
            | some items_schema =>
              cases hit : (match items_schema with
                  | .obj ikvs => optIsStrVal (lookupA ikvs "type".data) "object".data
                  | _ => false) with
              | true =>
                obtain ⟨t, ht⟩ := castItems_ok rec hrec items.enum
                  (effective_object_schema items_schema) (castPath bp q) ([], [], [], [])
                obtain ⟨ni, na, nr, ns⟩ := t
                simp only [castStep4, hl, hty2, hitems, hit, Bool.and_true, Bool.and_false,
                  Bool.false_and, if_false, Bool.true_and, if_true, ht]
                exact ih bp _
              | false =>
                simp only [castStep4, hl, hty2, hitems, hit, Bool.and_true, Bool.and_false,
                  Bool.false_and, if_false, Bool.true_and, if_true]
                exact ih bp _
          | false =>
            simp only [castStep4, hl, hty2, Bool.and_true, Bool.and_false,
              Bool.false_and, if_false]
            exact ih bp _
        | null =>
          simp only [castStep4, hl, Bool.and_false, if_false]
          exact ih bp _
        | bool b =>
          simp only [castStep4, hl, Bool.and_false, if_false]
          exact ih bp _
        | num n =>
          simp only [castStep4, hl, Bool.and_false, if_false]
          exact ih bp _
        | str st =>
          simp only [castStep4, hl, Bool.and_false, if_false]
          exact ih bp _
      | null => simp only [castStep4, hl]; exact ih bp _
      | bool b => simp only [castStep4, hl]; exact ih bp _
      | num n => simp only [castStep4, hl]; exact ih bp _
      | str st => simp only [castStep4, hl]; exact ih bp _
      | arr xs => simp only [castStep4, hl]; exact ih bp _


theorem castFinish_ok {r : Except Str (List (Str × Json) × List Str × List Str × List Str)}
    (h : ∃ t, r = .ok t) : ∃ t, castFinish r = .ok t := by
  obtain ⟨⟨r4, a4, rm4, rs4⟩, ht⟩ := h
  rw [ht]
  exact ⟨_, rfl⟩

/-- `_cast_instance_to_schema` never raises on an object instance: the
`SchemaCastError` branch fires only for non-object instances, and the
recursion only ever passes objects. -/
theorem cast_instance_ok :
    ∀ (f : Nat) (kvs : List (Str × Json)) (schema : Json) (bp : Str),
      ∃ t, cast_instance_to_schema f (.obj kvs) schema bp = .ok t := by
  intro f
  induction f with
  | zero => intro kvs schema bp; exact ⟨(.obj kvs, [], [], []), rfl⟩
  | succ f ih =>
    intro kvs schema bp
    show ∃ t, cast_instance_obj (cast_instance_to_schema f) kvs schema bp = .ok t
    unfold cast_instance_obj
    exact castFinish_ok (castStep4_ok (cast_instance_to_schema f) ih _ bp _)

/-- Step 1 preserves an established binding `p ↦ d` and membership of the
path in the added list (insertions only touch keys absent from the
result). -/
theorem castStep1_preserves (tps : List (Str × Json)) (bp p : Str) (d : Json) :
    ∀ (req : List Json) (r : List (Str × Json)) (a s : List Str),
      lookupA r p = some d → castPath bp p ∈ a →
      lookupA (castStep1 tps bp req (r, a, s)).1 p = some d
      ∧ castPath bp p ∈ (castStep1 tps bp req (r, a, s)).2.1 := by
  intro req
  induction req with
  | nil => intro r a s hr ha; exact ⟨hr, ha⟩
  | cons prop rest ih =>
    intro r a s hr ha
    cases prop with
    | str pname =>
      by_cases hk : hasKeyA r pname = true
      · simp only [castStep1, hk, if_true]
        exact ih r a s hr ha
      · have hne : pname ≠ p := by
          intro he; exact hk (he ▸ hasKeyA_of_lookupA hr)
        rw [Bool.not_eq_true] at hk
        cases hd : (match (lookupA tps pname).getD (.obj []) with
            | Json.obj pkvs => lookupA pkvs "default".data
            | _ => none) with
        | some dq =>
          simp only [castStep1, hk, Bool.false_eq_true, if_false, hd]
          exact ih _ _ s (by rw [lookupA_insertA_ne r dq hne]; exact hr)
            (List.mem_append_left _ ha)
        | none =>
          simp only [castStep1, hk, Bool.false_eq_true, if_false, hd]
          exact ih r a _ hr ha
    | null => exact ih r a _ hr ha
    | bool b => exact ih r a _ hr ha
    | num n => exact ih r a _ hr ha
    | arr xs => exact ih r a _ hr ha
    | obj kvs => exact ih r a _ hr ha

/-- Step 1 establishes the binding for a missing required property whose
schema declares a default. -/
theorem castStep1_establishes (tps : List (Str × Json)) (bp p : Str)
    (pkvs : List (Str × Json)) (d : Json)
    (hlook : lookupA tps p = some (.obj pkvs))
    (hdef : lookupA pkvs "default".data = some d) :
    ∀ (req : List Json) (r : List (Str × Json)) (a s : List Str),
      Json.str p ∈ req → hasKeyA r p = false →
      lookupA (castStep1 tps bp req (r, a, s)).1 p = some d
      ∧ castPath bp p ∈ (castStep1 tps bp req (r, a, s)).2.1 := by
  intro req
  induction req with
  | nil => intro r a s hmem; cases hmem
  | cons prop rest ih =>
    intro r a s hmem hmiss
    by_cases hp : prop = Json.str p
    · subst hp
      simp only [castStep1, hmiss, Bool.false_eq_true, if_false, hlook, Option.getD_some, hdef]
      exact castStep1_preserves tps bp p d rest _ _ s
        (lookupA_insertA_self r p d) (List.mem_append_right _ (List.mem_singleton.mpr rfl))
    · have hmem' : Json.str p ∈ rest := by
        cases hmem with
        | head => exact absurd rfl hp
        | tail _ h => exact h
      cases prop with
      | str q =>
        have hq : q ≠ p := fun he => hp (by rw [he])
        by_cases hk : hasKeyA r q = true
        · simp only [castStep1, hk, if_true]
          exact ih r a s hmem' hmiss
        · rw [Bool.not_eq_true] at hk
          cases hd : (match (lookupA tps q).getD (.obj []) with
              | Json.obj pkvs2 => lookupA pkvs2 "default".data
              | _ => none) with
          | some dq =>
            simp only [castStep1, hk, Bool.false_eq_true, if_false, hd]
            exact ih _ _ s hmem' (by rw [hasKeyA_insertA_ne r dq hq]; exact hmiss)
          | none =>
            simp only [castStep1, hk, Bool.false_eq_true, if_false, hd]
            exact ih r a _ hmem' hmiss
      | null => exact ih r a _ hmem' hmiss
      | bool b => exact ih r a _ hmem' hmiss
      | num n => exact ih r a _ hmem' hmiss
      | arr xs => exact ih r a _ hmem' hmiss
      | obj kvs => exact ih r a _ hmem' hmiss

/-- Step 2 preserves the binding and the added-path membership. -/
theorem castStep2_preserves (req : List Json) (bp p : Str) (d : Json) :
    ∀ (pairs : List (Str × Json)) (r : List (Str × Json)) (a : List Str),
      lookupA r p = some d → castPath bp p ∈ a →
      lookupA (castStep2 req bp pairs (r, a)).1 p = some d
      ∧ castPath bp p ∈ (castStep2 req bp pairs (r, a)).2 := by
  intro pairs
  induction pairs with
  | nil => intro r a hr ha; exact ⟨hr, ha⟩
  | cons qs rest ih =>
    intro r a hr ha
    obtain ⟨q, sch⟩ := qs
    by_cases hreq : containsPrim req (.str q) = true
    · simp only [castStep2, hreq, if_true]
      exact ih r a hr ha
    · rw [Bool.not_eq_true] at hreq
      by_cases hcond : (¬ hasKeyA r q
          && (match sch with | Json.obj pkvs => hasKeyA pkvs "default".data | _ => false)) = true
      · have hq : q ≠ p := by
          intro he
          rw [Bool.and_eq_true] at hcond
          have := hcond.1
          rw [he, hasKeyA_of_lookupA hr] at this
          simp at this
        simp only [castStep2, hreq, Bool.false_eq_true, if_false, hcond, if_true]
        exact ih _ _ (by
            rw [lookupA_insertA_ne r _ hq]; exact hr)
          (List.mem_append_left _ ha)
      · rw [Bool.not_eq_true] at hcond
        simp only [castStep2, hreq, Bool.false_eq_true, if_false, hcond]
        exact ih r a hr ha

/-- Step 2.5 preserves the binding whenever every pair keyed by `p` carries
no `const`. -/
theorem castStep25_preserves (p : Str) (d : Json) :
    ∀ (pairs : List (Str × Json)) (r : List (Str × Json)),
      lookupA r p = some d →
      (∀ sch, (p, sch) ∈ pairs →
        (match sch with | Json.obj skvs => lookupA skvs "const".data | _ => none) = none) →
      lookupA (castStep25 pairs r) p = some d := by
  intro pairs
  induction pairs with
  | nil => intro r hr _; exact hr
  | cons qs rest ih =>
    intro r hr hconst
    obtain ⟨q, sch⟩ := qs
    have hconst' : ∀ sch, (p, sch) ∈ rest →
        (match sch with | Json.obj skvs => lookupA skvs "const".data | _ => none) = none :=
      fun sch2 hm => hconst sch2 (List.mem_cons_of_mem _ hm)
    cases hc : (match sch with | Json.obj skvs => lookupA skvs "const".data | _ => none) with
    | none =>
      simp only [castStep25, hc]
      exact ih r hr hconst'
    | some cv =>
      have hq : q ≠ p := by
        intro he
        subst he
        rw [hconst sch (List.mem_cons_self _ _)] at hc
        exact Option.noConfusion hc
      simp only [castStep25, hc]
      cases hold : lookupA r q with
      | none => exact ih r hr hconst'
      | some ov =>
        cases cv with
        | str cvs =>
          cases ov with
          | str ovs =>
            by_cases hstamp : (GtsID.is_valid cvs && GtsID.is_valid ovs && ovs ≠ cvs) = true
            · simp only [hstamp, if_true]
              exact ih _ (by rw [lookupA_insertA_ne r _ hq]; exact hr) hconst'
            · rw [Bool.not_eq_true] at hstamp
              simp only [hstamp, Bool.false_eq_true, if_false]
              exact ih r hr hconst'
          | null => exact ih r hr hconst'
          | bool b => exact ih r hr hconst'
          | num n => exact ih r hr hconst'
          | arr xs => exact ih r hr hconst'
          | obj kvs => exact ih r hr hconst'
        | null => exact ih r hr hconst'
        | bool b => exact ih r hr hconst'
        | num n => exact ih r hr hconst'
        | arr xs => exact ih r hr hconst'
        | obj kvs => exact ih r hr hconst'

/-- Step 3 preserves the binding when the property is declared by the
target. -/
theorem castStep3_preserves (tps : List (Str × Json)) (bp p : Str) (d : Json)
    (hkey : hasKeyA tps p = true) :
    ∀ (keys : List Str) (r : List (Str × Json)) (rm : List Str),
      lookupA r p = some d →
      lookupA (castStep3 tps bp keys (r, rm)).1 p = some d := by
  intro keys
  induction keys with
  | nil => intro r rm hr; exact hr
  | cons q rest ih =>
    intro r rm hr
    by_cases hq : hasKeyA tps q = true
    · simp only [castStep3, hq, Bool.not_true, Bool.false_eq_true, if_false]
      exact ih r rm hr
    · have hne : q ≠ p := fun he => hq (he ▸ hkey)
      rw [Bool.not_eq_true] at hq
      simp only [castStep3, hq, Bool.false_eq_true, not_false_eq_true, if_true]
      exact ih _ _ (by rw [lookupA_eraseA_ne r hne]; exact hr)

/-- Step 4 is total and preserves the binding and added-path membership
when the bound value is a scalar (no nested recursion touches it). -/
theorem castStep4_preserves
    (rec : Json → Json → Str → Except Str (Json × List Str × List Str × List Str))
    (hrec : ∀ kvs schema bp, ∃ t, rec (.obj kvs) schema bp = .ok t)
    (bp p : Str) (d : Json)
    (hscalar : (match d with | Json.obj _ => false | Json.arr _ => false | _ => true) = true) :
    ∀ (pairs : List (Str × Json)) (r : List (Str × Json)) (a rm rs : List Str),
      lookupA r p = some d → castPath bp p ∈ a →
      ∃ r4 a4 rm4 rs4, castStep4 rec bp pairs (r, a, rm, rs) = .ok (r4, a4, rm4, rs4)
        ∧ lookupA r4 p = some d ∧ castPath bp p ∈ a4 := by
  intro pairs
  induction pairs with
  | nil => intro r a rm rs hr ha; exact ⟨r, a, rm, rs, rfl, hr, ha⟩
  | cons qs rest ih =>
    intro r a rm rs hr ha
    obtain ⟨q, sch⟩ := qs
    cases hl : lookupA r q with
    | none =>
      simp only [castStep4, hl]
      exact ih r a rm rs hr ha
    | some val =>
      cases sch with
      | obj pkvs =>
        cases val with
        | obj vkvs =>
          have hq : q ≠ p := by
            intro he
            rw [he, hr] at hl
            have hd2 : d = Json.obj vkvs := Option.some.inj hl
            rw [hd2] at hscalar
            exact Bool.noConfusion hscalar
          cases hty : optIsStrVal (lookupA pkvs "type".data) "object".data with
          | true =>
            obtain ⟨t, ht⟩ := hrec vkvs (effective_object_schema (.obj pkvs)) (castPath bp q)
            obtain ⟨ni, na, nr, ns⟩ := t
            simp only [castStep4, hl, hty, Bool.and_true, Bool.true_and, if_true, ht]
            exact ih _ _ _ _ (by rw [lookupA_insertA_ne r _ hq]; exact hr)
              (List.mem_append_left _ ha)
          | false =>
            simp only [castStep4, hl, hty, Bool.and_true, Bool.and_false,
              Bool.false_and, if_false]
            exact ih r a rm rs hr ha
        | arr items =>
          have hq : q ≠ p := by
            intro he
            rw [he, hr] at hl
            have hd2 : d = Json.arr items := Option.some.inj hl
            rw [hd2] at hscalar
            exact Bool.noConfusion hscalar
          cases hty2 : optIsStrVal (lookupA pkvs "type".data) "array".data with
          | true =>
            cases hitems : lookupA pkvs "items".data with
            | none =>
              simp only [castStep4, hl, hty2, hitems, Bool.and_true, Bool.and_false,
                Bool.false_and, if_false, Bool.true_and, if_true]
              exact ih r a rm rs hr ha
            | some items_schema =>
              cases hit : (match items_schema with
                  | .obj ikvs => optIsStrVal (lookupA ikvs "type".data) "object".data
                  | _ => false) with
              | true =>
                obtain ⟨t, ht⟩ := castItems_ok rec hrec items.enum
                  (effective_object_schema items_schema) (castPath bp q) ([], [], [], [])
                obtain ⟨ni, na, nr, ns⟩ := t
                simp only [castStep4, hl, hty2, hitems, hit, Bool.and_true, Bool.and_false,
                  Bool.false_and, if_false, Bool.true_and, if_true, ht]
                exact ih _ _ _ _ (by rw [lookupA_insertA_ne r _ hq]; exact hr)
                  (List.mem_append_left _ ha)
              | false =>
                simp only [castStep4, hl, hty2, hitems, hit, Bool.and_true, Bool.and_false,
                  Bool.false_and, if_false, Bool.true_and, if_true]
                exact ih r a rm rs hr ha
          | false =>
            simp only [castStep4, hl, hty2, Bool.and_true, Bool.and_false,
              Bool.false_and, if_false]
            exact ih r a rm rs hr ha
        | null =>
          simp only [castStep4, hl, Bool.and_false, if_false]
          exact ih r a rm rs hr ha
        | bool b =>
          simp only [castStep4, hl, Bool.and_false, if_false]
          exact ih r a rm rs hr ha
        | num n =>
          simp only [castStep4, hl, Bool.and_false, if_false]
          exact ih r a rm rs hr ha
        | str st =>
          simp only [castStep4, hl, Bool.and_false, if_false]
          exact ih r a rm rs hr ha
      | null => simp only [castStep4, hl]; exact ih r a rm rs hr ha
      | bool b => simp only [castStep4, hl]; exact ih r a rm rs hr ha
      | num n => simp only [castStep4, hl]; exact ih r a rm rs hr ha
      | str st => simp only [castStep4, hl]; exact ih r a rm rs hr ha
      | arr xs => simp only [castStep4, hl]; exact ih r a rm rs hr ha

theorem mem_dedupFirstGo [BEq α] [LawfulBEq α] (a : α) :
    ∀ (l seen : List α), a ∈ l → a ∈ seen ∨ a ∈ dedupFirstGo seen l := by
  intro l
  induction l with
  | nil => intro seen h; cases h
  | cons b rest ih =>
    intro seen h
    by_cases hb : seen.contains b = true
    · simp only [dedupFirstGo, hb, if_true]
      cases h with
      | head => exact Or.inl (List.mem_of_elem_eq_true hb)
      | tail _ hm => exact ih seen hm
    · rw [Bool.not_eq_true] at hb
      simp only [dedupFirstGo, hb, Bool.false_eq_true, if_false]
      cases h with
      | head => exact Or.inr (List.mem_cons_self _ _)
      | tail _ hm =>
        rcases ih (b :: seen) hm with hseen | hres
        · rcases List.mem_cons.mp hseen with he | hs
          · exact Or.inr (he ▸ List.mem_cons_self _ _)
          · exact Or.inl hs
        · exact Or.inr (List.mem_cons_of_mem _ hres)

theorem mem_dedupFirst [BEq α] [LawfulBEq α] {a : α} {l : List α} (h : a ∈ l) :
    a ∈ dedupFirst l :=
  (mem_dedupFirstGo a l [] h).resolve_left (by simp)

theorem self_mem_insertSorted (s : Str) (t : List Str) : s ∈ insertSorted s t := by
  induction t with
  | nil => exact List.mem_singleton.mpr rfl
  | cons u us ih =>
    by_cases h : strLe s u = true
    · simp only [insertSorted, h, if_true]
      exact List.mem_cons_self _ _
    · rw [Bool.not_eq_true] at h
      simp only [insertSorted, h, Bool.false_eq_true, if_false]
      exact List.mem_cons_of_mem _ ih

theorem mem_insertSorted_of_mem {a : Str} {t : List Str} (s : Str) (h : a ∈ t) :
    a ∈ insertSorted s t := by
  induction t with
  | nil => cases h
  | cons u us ih =>
    by_cases hle : strLe s u = true
    · simp only [insertSorted, hle, if_true]
      exact List.mem_cons_of_mem _ h
    · rw [Bool.not_eq_true] at hle
      simp only [insertSorted, hle, Bool.false_eq_true, if_false]
      cases h with
      | head => exact List.mem_cons_self _ _
      | tail _ hm => exact List.mem_cons_of_mem _ (ih hm)

theorem mem_sortStrs {a : Str} {l : List Str} (h : a ∈ l) : a ∈ sortStrs l := by
  induction l with
  | nil => cases h
  | cons s ss ih =>
    cases h with
    | head => exact self_mem_insertSorted _ _
    | tail _ hm => exact mem_insertSorted_of_mem _ (ih hm)

/-- A required property absent from the instance whose property schema
declares a scalar default and no `const` gets the default filled in by
`_cast_instance_to_schema`, and its (root-level) path lands in the added
list. -/
theorem cast_instance_default (f : Nat) (inst : List (Str × Json)) (schema : Json)
    (p : Str) (pkvs : List (Str × Json)) (d : Json)
    (hscalar : (match d with | Json.obj _ => false | Json.arr _ => false | _ => true) = true)
    (hreq : containsPrim (schemaRequired schema) (.str p) = true)
    (hlook : lookupA (schemaProps schema) p = some (.obj pkvs))
    (hdef : lookupA pkvs "default".data = some d)
    (hnoconst : hasKeyA pkvs "const".data = false)
    (hmissing : hasKeyA inst p = false)
    (hnodup : ((schemaProps schema).map Prod.fst).Nodup) :
    ∃ out added removed reasons,
      cast_instance_to_schema (f + 1) (.obj inst) schema []
        = .ok (.obj out, added, removed, reasons)
      ∧ lookupA out p = some d ∧ p ∈ added := by
  have hkey : hasKeyA (schemaProps schema) p = true := hasKeyA_of_lookupA hlook
  have hconstAll : ∀ sch, (p, sch) ∈ schemaProps schema →
      (match sch with | Json.obj skvs => lookupA skvs "const".data | _ => none) = none := by
    intro sch hm
    have hs := lookupA_of_mem_nodup hnodup hm
    rw [hlook] at hs
    have hse := Option.some.inj hs
    rw [← hse]
    show lookupA pkvs "const".data = none
    cases hc : lookupA pkvs "const".data with
    | none => rfl
    | some v =>
      unfold hasKeyA at hnoconst
      rw [hc] at hnoconst
      simp at hnoconst
  have hcp : castPath [] p = p := by simp [castPath]
  show ∃ out added removed reasons,
    cast_instance_obj (cast_instance_to_schema f) inst schema []
      = .ok (.obj out, added, removed, reasons)
    ∧ lookupA out p = some d ∧ p ∈ added
  simp only [cast_instance_obj]
  set S1 := castStep1 (schemaProps schema) [] (schemaRequired schema) (inst, [], [])
  set S2 := castStep2 (schemaRequired schema) [] (schemaProps schema) (S1.1, S1.2.1)
  set R25 := castStep25 (schemaProps schema) S2.1
  have h1 : lookupA S1.1 p = some d ∧ castPath [] p ∈ S1.2.1 :=
    castStep1_establishes (schemaProps schema) [] p pkvs d hlook hdef
      (schemaRequired schema) inst [] [] (mem_of_containsPrim_str hreq) hmissing
  have h2 : lookupA S2.1 p = some d ∧ castPath [] p ∈ S2.2 :=
    castStep2_preserves (schemaRequired schema) [] p d (schemaProps schema) S1.1 S1.2.1 h1.1 h1.2
  have h25 : lookupA R25 p = some d :=
    castStep25_preserves p d (schemaProps schema) S2.1 h2.1 hconstAll
  by_cases hcond : (match (Json.get schema "additionalProperties".data).getD (Json.bool true) with
      | Json.bool false => true | _ => false) = true
  · rw [if_pos hcond]
    set S3 := castStep3 (schemaProps schema) [] (R25.map Prod.fst) (R25, [])
    obtain ⟨r4, a4, rm4, rs4, hstep4, hr4, ha4⟩ :=
      castStep4_preserves (cast_instance_to_schema f) (cast_instance_ok f) [] p d hscalar
        (schemaProps schema) S3.1 S2.2 S3.2 S1.2.2
        (castStep3_preserves (schemaProps schema) [] p d hkey (R25.map Prod.fst) R25 [] h25)
        h2.2
    have ha4p : p ∈ a4 := by rw [hcp] at ha4; exact ha4
    rw [hstep4]
    exact ⟨r4, a4, rm4, rs4, rfl, hr4, ha4p⟩
  · rw [if_neg hcond]
    obtain ⟨r4, a4, rm4, rs4, hstep4, hr4, ha4⟩ :=
      castStep4_preserves (cast_instance_to_schema f) (cast_instance_ok f) [] p d hscalar
        (schemaProps schema) R25 S2.2 [] S1.2.2 h25 h2.2
    have ha4p : p ∈ a4 := by rw [hcp] at ha4; exact ha4
    show ∃ out added removed reasons,
      castFinish (castStep4 (cast_instance_to_schema f) [] (schemaProps schema)
        (R25, S2.2, [], S1.2.2)) = .ok (.obj out, added, removed, reasons)
      ∧ lookupA out p = some d ∧ p ∈ added
    rw [hstep4]
    exact ⟨r4, a4, rm4, rs4, rfl, hr4, ha4p⟩

/-- Claim C6: casting an instance that lacks a required target property whose
(flattened) property schema declares a scalar default and no `const` yields a
casted entity carrying the default at that property, lists the property in
`added_properties`, and `is_fully_compatible` holds exactly when the relaxed
final validation passes. -/
theorem C6_theorem (f : Nat) (validator : Json → Json → Option Str)
    (from_id to_id : Str) (inst : List (Str × Json))
    (from_schema to_schema : Json)
    (p : Str) (pkvs : List (Str × Json)) (d : Json)
    (hscalar : (match d with | Json.obj _ => false | Json.arr _ => false | _ => true) = true)
    (hreq : containsPrim (schemaRequired (flatten_schema (f + 1) to_schema)) (.str p) = true)
    (hlook : lookupA (schemaProps (flatten_schema (f + 1) to_schema)) p = some (.obj pkvs))
    (hdef : lookupA pkvs "default".data = some d)
    (hnoconst : hasKeyA pkvs "const".data = false)
    (hmissing : hasKeyA inst p = false)
    (hnodup : ((schemaProps (flatten_schema (f + 1) to_schema)).map Prod.fst).Nodup) :
    ∃ out,
      (GtsEntityCastResult.cast (f + 1) validator from_id to_id (.obj inst) from_schema
        to_schema).casted_entity = some (.obj out)
      ∧ lookupA out p = some d
      ∧ p ∈ (GtsEntityCastResult.cast (f + 1) validator from_id to_id (.obj inst) from_schema
          to_schema).added_properties
      ∧ ((GtsEntityCastResult.cast (f + 1) validator from_id to_id (.obj inst) from_schema
          to_schema).is_fully_compatible = true
        ↔ validator (.obj out) (remove_gts_const_constraints (f + 1) to_schema) = none) := by
  obtain ⟨out, added, removed, reasons, hcast, hlo, hpa⟩ :=
    cast_instance_default f inst (flatten_schema (f + 1) to_schema) p pkvs d
      hscalar hreq hlook hdef hnoconst hmissing hnodup
  refine ⟨out, ?_, hlo, ?_, ?_⟩
  · simp only [GtsEntityCastResult.cast]
    rw [hcast]
  · simp only [GtsEntityCastResult.cast]
    rw [hcast]
    exact mem_sortStrs (mem_dedupFirst hpa)
  · simp only [GtsEntityCastResult.cast]
    rw [hcast]
    exact Option.isNone_iff_eq_none

/-- The target-property schema of `a` in the counterexample schema: an
object-typed property whose declared default is the empty object, with a
nested required property `b` defaulting to `5`. -/
def c6_bad_a_pkvs : List (Str × Json) :=
  [("type".data, .str "object".data),
   ("default".data, .obj []),
   ("required".data, .arr [.str "b".data]),
   ("properties".data, .obj [("b".data, .obj [("default".data, .num 5)])])]

def c6_bad_schema : Json := .obj
  [("type".data, .str "object".data),
   ("properties".data, .obj [("a".data, .obj c6_bad_a_pkvs)]),
   ("required".data, .arr [.str "a".data])]

def c6_email_pkvs : List (Str × Json) :=
  [("type".data, .str "string".data),
   ("default".data, .str "unknown".data)]

def c6_schema : Json := .obj
  [("type".data, .str "object".data),
   ("properties".data, .obj
     [("name".data, .obj [("type".data, .str "string".data)]),
      ("email".data, .obj c6_email_pkvs)]),
   ("required".data, .arr [.str "name".data, .str "email".data])]

def c6_instance : List (Str × Json) := [("name".data, .str "bob".data)]

/-- Claim C6 counterexample: the literal claim fails for non-scalar
defaults.  Property `a` declares the default `{}`, yet the casted entity
carries `{"b": 5}` at `a` — the nested cast of step 4 mutates the filled
default by inserting the nested required property's default — so the
migrated instance does not contain the declared default value. -/
theorem C6_counterexample :
    lookupA c6_bad_a_pkvs "default".data = some (Json.obj [])
    ∧ (GtsEntityCastResult.cast 3 (fun _ _ => none) "gts.v.p.n.t.v1~v.p.n.i.v1".data
        "gts.v.p.n.t.v1~".data (.obj []) (.obj []) c6_bad_schema).casted_entity
      = some (.obj [("a".data, .obj [("b".data, .num 5)])])
    ∧ Json.obj [("b".data, Json.num 5)] ≠ Json.obj [] := by
  refine ⟨rfl, rfl, ?_⟩
  intro h
  injection h with h1
  exact List.noConfusion h1

/-- Claim C6 witness: casting `{"name": "bob"}` to the schema requiring
`email` with default `"unknown"` fills the default, adds `email`, and is
fully compatible under a passing final validation. -/
theorem C6_witness :
    ∃ out,
      (GtsEntityCastResult.cast 3 (fun _ _ => none) "gts.v.p.n.t.v1~v.p.n.i.v1".data
        "gts.v.p.n.t.v1~".data (.obj c6_instance) (.obj []) c6_schema).casted_entity
        = some (.obj out)
      ∧ lookupA out "email".data = some (.str "unknown".data)
      ∧ "email".data ∈ (GtsEntityCastResult.cast 3 (fun _ _ => none)
          "gts.v.p.n.t.v1~v.p.n.i.v1".data "gts.v.p.n.t.v1~".data (.obj c6_instance)
          (.obj []) c6_schema).added_properties
      ∧ ((GtsEntityCastResult.cast 3 (fun _ _ => none) "gts.v.p.n.t.v1~v.p.n.i.v1".data
          "gts.v.p.n.t.v1~".data (.obj c6_instance) (.obj []) c6_schema).is_fully_compatible
            = true
        ↔ (none : Option Str) = none) :=
  C6_theorem 2 (fun _ _ => none) "gts.v.p.n.t.v1~v.p.n.i.v1".data "gts.v.p.n.t.v1~".data
    c6_instance (.obj []) c6_schema "email".data c6_email_pkvs (.str "unknown".data)
    rfl rfl rfl rfl rfl rfl (by decide)

theorem natDigitsRev_lt (f : Nat) : ∀ (n d : Nat), d ∈ natDigitsRev f n → d < 10 := by
  induction f with
  | zero => intro n d h; cases h
  | succ f ih =>
    intro n d h
    by_cases hn : n = 0
    · simp [natDigitsRev, hn] at h
    · simp only [natDigitsRev, hn, if_false] at h
      cases h with
      | head => exact Nat.mod_lt _ (by decide)
      | tail _ hm => exact ih _ _ hm

theorem digitToChar_isDigit {d : Nat} (h : d < 10) : isDigitChar (digitToChar d) = true := by
  interval_cases d <;> decide

theorem natToChars_digits (m : Nat) : ∀ c ∈ natToChars m, isDigitChar c = true := by
  intro c hc
  unfold natToChars at hc
  by_cases hm : m = 0
  · simp [hm] at hc
    subst hc; decide
  · simp only [hm, if_false] at hc
    rw [List.mem_map] at hc
    obtain ⟨d, hd, he⟩ := hc
    rw [List.mem_reverse] at hd
    exact he ▸ digitToChar_isDigit (natDigitsRev_lt _ _ _ hd)

theorem natToChars_ne_nil (m : Nat) : natToChars m ≠ [] := by
  unfold natToChars
  by_cases hm : m = 0
  · simp [hm]
  · simp only [hm, if_false]
    intro h
    rw [List.map_eq_nil_iff, List.reverse_eq_nil_iff] at h
    rw [show m + 1 = (m - 1) + 1 + 1 by omega] at h
    simp only [natDigitsRev, hm, if_false] at h
    exact List.noConfusion h

theorem isDigit_isTokenChar {c : Char} (h : isDigitChar c = true) : isTokenChar c = true := by
  unfold isTokenChar
  rw [h, Bool.or_true]

theorem tokenCore_chars {t : Str} (h : tokenCore t = true) :
    ∀ c ∈ t, isTokenChar c = true := by
  intro c hc
  cases t with
  | nil => cases hc
  | cons c0 cs =>
    unfold tokenCore at h
    rw [Bool.and_eq_true] at h
    cases hc with
    | head => unfold isTokenChar; rw [h.1, Bool.true_or]
    | tail _ hm => exact (List.all_eq_true.mp h.2) c hm

/-- Characters of the GTS token alphabet are lowercase-stable and distinct
from the structural characters of identifiers. -/
theorem isTokenChar_spec {c : Char} (h : isTokenChar c = true) :
    ('A' ≤ c && c ≤ 'Z') = false ∧ c ≠ '-' ∧ c ≠ '~' ∧ c ≠ '.' ∧ c ≠ '*' := by
  simp only [isTokenChar, isTokenStart, isDigitChar, Bool.or_eq_true, Bool.and_eq_true,
    decide_eq_true_eq] at h
  refine ⟨?_, ?_, ?_, ?_, ?_⟩
  · by_cases hZ : c ≤ 'Z'
    · rcases h with (⟨h1, _⟩ | h1) | ⟨_, h2⟩
      · exact absurd (le_trans h1 hZ) (by decide)
      · subst h1; exact absurd hZ (by decide)
      · have hA : ¬ ('A' ≤ c) := fun hA => absurd (le_trans hA h2) (by decide)
        simp [hA]
    · simp [hZ]
  · intro he; subst he; exact absurd h (by decide)
  · intro he; subst he; exact absurd h (by decide)
  · intro he; subst he; exact absurd h (by decide)
  · intro he; subst he; exact absurd h (by decide)

theorem splitOnChar_not_mem {c : Char} : ∀ {l : Str}, c ∉ l → splitOnChar c l = [l] := by
  intro l
  induction l with
  | nil => intro _; rfl
  | cons x xs ih =>
    intro h
    have hx : ¬ (x = c) := fun he => h (he ▸ List.mem_cons_self _ _)
    have hxs : c ∉ xs := fun hm => h (List.mem_cons_of_mem _ hm)
    simp only [splitOnChar, hx, if_false, ih hxs]

theorem splitOnChar_append {c : Char} : ∀ {l1 : Str} (l2 : Str), c ∉ l1 →
    splitOnChar c (l1 ++ c :: l2) = l1 :: splitOnChar c l2 := by
  intro l1
  induction l1 with
  | nil =>
    intro l2 _
    simp [splitOnChar]
  | cons x xs ih =>
    intro l2 h
    have hx : ¬ (x = c) := fun he => h (he ▸ List.mem_cons_self _ _)
    have hxs : c ∉ xs := fun hm => h (List.mem_cons_of_mem _ hm)
    simp only [List.cons_append, splitOnChar, hx, if_false]
    rw [show List.append xs (c :: l2) = xs ++ c :: l2 from rfl, ih l2 hxs]

theorem mem_joinSep_dot : ∀ (ts : List Str) (c : Char), c ∈ joinSep ['.'] ts →
    (∃ t ∈ ts, c ∈ t) ∨ c = '.' := by
  intro ts
  induction ts with
  | nil => intro c h; cases h
  | cons x xs ih =>
    intro c h
    cases xs with
    | nil =>
      exact Or.inl ⟨x, List.mem_singleton.mpr rfl, h⟩
    | cons y rest =>
      have h2 : c ∈ x ++ ['.'] ++ joinSep ['.'] (y :: rest) := h
      rw [List.append_assoc, List.mem_append] at h2
      cases h2 with
      | inl hx => exact Or.inl ⟨x, List.mem_cons_self _ _, hx⟩
      | inr hr =>
        rw [List.mem_append] at hr
        cases hr with
        | inl hdot => exact Or.inr (List.mem_singleton.mp hdot)
        | inr hjoin =>
          rcases ih c hjoin with ⟨t, ht, hc⟩ | hdot
          · exact Or.inl ⟨t, List.mem_cons_of_mem _ ht, hc⟩
          · exact Or.inr hdot

theorem splitOnChar_joinSep_dot :
    ∀ (ts : List Str), ts ≠ [] → (∀ t ∈ ts, '.' ∉ t) →
      splitOnChar '.' (joinSep ['.'] ts) = ts := by
  intro ts
  induction ts with
  | nil => intro h _; exact absurd rfl h
  | cons x xs ih =>
    intro _ hdot
    cases xs with
    | nil => exact splitOnChar_not_mem (hdot x (List.mem_singleton.mpr rfl))
    | cons y rest =>
      have h2 : joinSep ['.'] (x :: y :: rest) = x ++ '.' :: joinSep ['.'] (y :: rest) := by
        show x ++ ['.'] ++ joinSep ['.'] (y :: rest) = _
        rw [List.append_assoc]
        rfl
      rw [h2, splitOnChar_append _ (hdot x (List.mem_cons_self _ _)),
        ih (by intro h3; exact List.noConfusion h3)
          (fun t ht => hdot t (List.mem_cons_of_mem _ ht))]

theorem pyLower_fixed : ∀ (l : Str), (∀ c ∈ l, ('A' ≤ c && c ≤ 'Z') = false) →
    pyLower l = l := by
  intro l
  induction l with
  | nil => intro _; rfl
  | cons x xs ih =>
    intro h
    show (if ('A' ≤ x && x ≤ 'Z') = true then Char.ofNat (x.toNat + 32) else x)
        :: pyLower xs = x :: xs
    rw [h x (List.mem_cons_self _ _)]
    simp only [Bool.false_eq_true, if_false]
    rw [ih (fun c hc => h c (List.mem_cons_of_mem _ hc))]

theorem strEnds_append_digits {x y : Str} (hy : y ≠ [])
    (hdig : ∀ c ∈ y, isDigitChar c = true) : strEnds (x ++ y) ['*'] = false := by
  unfold strEnds
  rw [List.reverse_append]
  cases hyr : y.reverse with
  | nil => exact absurd (List.reverse_eq_nil_iff.mp hyr) hy
  | cons w ws =>
    have hw : w ∈ y := by
      rw [← List.mem_reverse, hyr]; exact List.mem_cons_self _ _
    have hwd := hdig w hw
    have hne : (w = '*') = False := by
      simp only [eq_iff_iff, iff_false]
      intro he; subst he; exact Bool.noConfusion hwd
    show (decide (w = '*') && _) = false
    rw [decide_eq_false (by rw [hne]; exact id), Bool.false_and]

/-- The token cascade accepts a well-formed type segment: four regular
tokens, a canonical `v`-major token, and an optional canonical minor
token. -/
theorem segTokensCascade_ok (s0 : GtsIdSegment) (num off : Nat) (err : Str)
    (a b c d vMc : Str) (n : Int) (rest4 : List Str)
    (ha : tokenCore a = true) (hb : tokenCore b = true)
    (hc : tokenCore c = true) (hd : tokenCore d = true)
    (hv : pyInt vMc = some n) (hn : ¬ n < 0) (hcanon : intToChars n = vMc)
    (hrest : rest4 = [] ∨ ∃ t5 m5, rest4 = [t5] ∧ pyInt t5 = some m5
      ∧ ¬ m5 < 0 ∧ intToChars m5 = t5) :
    ∃ st, segTokensCascade s0 num off err (a :: b :: c :: d :: ('v' :: vMc) :: rest4)
      = .ok st := by
  have ha' : ¬ (a = ['*']) := fun he => absurd (he ▸ ha) (by decide)
  have hb' : ¬ (b = ['*']) := fun he => absurd (he ▸ hb) (by decide)
  have hc' : ¬ (c = ['*']) := fun he => absurd (he ▸ hc) (by decide)
  have hd' : ¬ (d = ['*']) := fun he => absurd (he ▸ hd) (by decide)
  have hv4 : ¬ (('v' :: vMc) = ['*']) := by simp
  have hvs : ¬ ¬ (strStarts ('v' :: vMc) ['v'] = true) := not_not_intro (by show (decide ('v' = 'v') && strStarts vMc []) = true; rw [strStarts_nil]; rfl)
  simp only [segTokensCascade, if_neg ha', if_neg hb', if_neg hc', if_neg hd',
    if_neg hv4, if_neg hvs, List.drop_succ_cons, List.drop_zero, hv, if_neg hn,
    if_neg (not_not_intro hcanon)]
  rcases hrest with hnil | ⟨t5, m5, he5, hv5, hn5, hc5⟩
  · subst hnil
    exact ⟨_, rfl⟩
  · subst he5
    by_cases h5 : t5 = ['*']
    · simp only [if_pos h5]
      exact ⟨_, rfl⟩
    · simp only [if_neg h5, hv5, if_neg hn5, if_neg (not_not_intro hc5)]
      exact ⟨_, rfl⟩

/-- A well-formed five- or six-token type segment (trailing `~`) parses. -/
theorem parse_segment_id_type_ok (num off : Nat)
    (a b c d vMc : Str) (n : Int) (rest5 : List Str)
    (ha : tokenCore a = true) (hb : tokenCore b = true)
    (hc : tokenCore c = true) (hd : tokenCore d = true)
    (hv : pyInt vMc = some n) (hn : ¬ n < 0) (hcanon : intToChars n = vMc)
    (hrest : rest5 = [] ∨ ∃ t5 m5, rest5 = [t5] ∧ pyInt t5 = some m5
      ∧ ¬ m5 < 0 ∧ intToChars m5 = t5) :
    ∃ st, parse_segment_id num off
      (joinSep ['.'] (a :: b :: c :: d :: ('v' :: vMc) :: rest5) ++ ['~']) = .ok st := by
  have hvMc : vMc = natToChars n.toNat := by
    rw [← hcanon]; unfold intToChars; rw [if_neg hn]
  have hvdig : ∀ ch ∈ vMc, isDigitChar ch = true := by
    rw [hvMc]; exact natToChars_digits _
  have hchars : ∀ t ∈ (a :: b :: c :: d :: ('v' :: vMc) :: rest5), ∀ ch ∈ t,
      isTokenChar ch = true := by
    intro t ht ch hch
    simp only [List.mem_cons] at ht
    rcases ht with rfl | rfl | rfl | rfl | rfl | ht5
    · exact tokenCore_chars ha ch hch
    · exact tokenCore_chars hb ch hch
    · exact tokenCore_chars hc ch hch
    · exact tokenCore_chars hd ch hch
    · rcases List.mem_cons.mp hch with rfl | hm
      · decide
      · exact isDigit_isTokenChar (hvdig ch hm)
    · rcases hrest with rfl | ⟨t5, m5, rfl, hv5, hn5, hc5⟩
      · cases ht5
      · have ht : t = t5 := List.mem_singleton.mp ht5
        subst ht
        have h5 : t = natToChars m5.toNat := by
          rw [← hc5]; unfold intToChars; rw [if_neg hn5]
        rw [h5] at hch
        exact isDigit_isTokenChar (natToChars_digits _ ch hch)
  have hdot : ∀ t ∈ (a :: b :: c :: d :: ('v' :: vMc) :: rest5), '.' ∉ t :=
    fun t ht hmem => (isTokenChar_spec (hchars t ht '.' hmem)).2.2.2.1 rfl
  have hsplit := splitOnChar_joinSep_dot (a :: b :: c :: d :: ('v' :: vMc) :: rest5)
    (by intro h2; exact List.noConfusion h2) hdot
  have htilde : '~' ∉ joinSep ['.'] (a :: b :: c :: d :: ('v' :: vMc) :: rest5) := by
    intro hm
    rcases mem_joinSep_dot _ _ hm with ⟨t, ht, hc2⟩ | hdot2
    · exact (isTokenChar_spec (hchars t ht '~' hc2)).2.2.1 rfl
    · exact absurd hdot2 (by decide)
  have hr5len : rest5.length ≤ 1 := by
    rcases hrest with rfl | ⟨t5, m5, rfl, _⟩ <;> simp
  have hcount : (joinSep ['.'] (a :: b :: c :: d :: ('v' :: vMc) :: rest5) ++ ['~']).count '~'
      = 1 := by
    rw [List.count_append, List.count_eq_zero.mpr htilde]
    rfl
  have hend : strEnds (joinSep ['.'] (a :: b :: c :: d :: ('v' :: vMc) :: rest5) ++ ['~'])
      ['~'] = true := by
    unfold strEnds
    rw [List.reverse_append]
    show (decide ('~' = '~')
      && strStarts (joinSep ['.'] (a :: b :: c :: d :: ('v' :: vMc) :: rest5)).reverse []) = true
    rw [strStarts_nil]; rfl
  simp only [parse_segment_id, hcount, gt_iff_lt, Nat.lt_irrefl, Nat.zero_lt_one, if_true,
    if_false, hend, List.dropLast_concat]
  simp only [parse_segment_tokens, hsplit]
  have h67 : ¬ ((a :: b :: c :: d :: ('v' :: vMc) :: rest5).length > 6) := by
    simp only [List.length_cons]
    omega
  have h5len : ¬ ((¬ strEnds (joinSep ['.'] (a :: b :: c :: d :: ('v' :: vMc) :: rest5)) ['*']
      && (a :: b :: c :: d :: ('v' :: vMc) :: rest5).length < 5) = true) := by
    intro h2
    rw [Bool.and_eq_true] at h2
    have := of_decide_eq_true h2.2
    simp only [List.length_cons] at this
    omega
  rw [if_neg h67, if_neg h5len]
  have hgm : ∀ t, tokenCore t = true → (decide (¬ gtsTokenMatch t = true)) = false := by
    intro t ht
    have : gtsTokenMatch t = true := by unfold gtsTokenMatch; rw [ht, Bool.true_or]
    simp [this]
  by_cases hstar : strEnds (joinSep ['.'] (a :: b :: c :: d :: ('v' :: vMc) :: rest5)) ['*']
      = true
  · have hcondf : ¬ (¬ strEnds (joinSep ['.'] (a :: b :: c :: d :: ('v' :: vMc) :: rest5))
        ['*'] = true) := not_not_intro hstar
    rw [if_neg hcondf]
    exact segTokensCascade_ok _ num off _ a b c d vMc n rest5 ha hb hc hd hv hn hcanon hrest
  · rw [if_pos hstar]
    simp only [List.take_succ_cons, List.take_zero, List.find?]
    rw [hgm a ha, hgm b hb, hgm c hc, hgm d hd]
    exact segTokensCascade_ok _ num off _ a b c d vMc n rest5 ha hb hc hd hv hn hcanon hrest

theorem strEnds_concat (x : Str) (ch : Char) : strEnds (x ++ [ch]) [ch] = true := by
  unfold strEnds
  rw [List.reverse_append]
  show (decide (ch = ch) && strStarts x.reverse []) = true
  rw [strStarts_nil, decide_eq_true rfl]
  rfl

theorem pyStrip_eq_self_of_ends {l : Str}
    (h1 : ∃ c1 t, l = c1 :: t ∧ isPySpace c1 = false)
    (h2 : ∃ c2 t2, l = t2 ++ [c2] ∧ isPySpace c2 = false) : pyStrip l = l := by
  obtain ⟨c1, t, he1, hs1⟩ := h1
  obtain ⟨c2, t2, he2, hs2⟩ := h2
  unfold pyStrip
  rw [he1, List.dropWhile_cons, hs1]
  simp only [Bool.false_eq_true, if_false]
  rw [← he1, he2, List.reverse_append]
  show ((c2 :: t2.reverse).dropWhile isPySpace).reverse = t2 ++ [c2]
  rw [List.dropWhile_cons, hs2]
  simp only [Bool.false_eq_true, if_false]
  rw [List.reverse_cons, List.reverse_reverse]

theorem c4_chars (a b c d vMc : Str) (n : Int) (rest5 : List Str)
    (ha : tokenCore a = true) (hb : tokenCore b = true)
    (hc : tokenCore c = true) (hd : tokenCore d = true)
    (hn : ¬ n < 0) (hcanon : intToChars n = vMc)
    (hrest : rest5 = [] ∨ ∃ t5 m5, rest5 = [t5] ∧ pyInt t5 = some m5
      ∧ ¬ m5 < 0 ∧ intToChars m5 = t5) :
    ∀ t ∈ (a :: b :: c :: d :: ('v' :: vMc) :: rest5), ∀ ch ∈ t,
      isTokenChar ch = true := by
  have hvMc : vMc = natToChars n.toNat := by
    rw [← hcanon]; unfold intToChars; rw [if_neg hn]
  intro t ht ch hch
  simp only [List.mem_cons] at ht
  rcases ht with rfl | rfl | rfl | rfl | rfl | ht5
  · exact tokenCore_chars ha ch hch
  · exact tokenCore_chars hb ch hch
  · exact tokenCore_chars hc ch hch
  · exact tokenCore_chars hd ch hch
  · rcases List.mem_cons.mp hch with rfl | hm
    · decide
    · rw [hvMc] at hm
      exact isDigit_isTokenChar (natToChars_digits _ ch hm)
  · rcases hrest with rfl | ⟨t5, m5, rfl, hv5, hn5, hc5⟩
    · cases ht5
    · have ht : t = t5 := List.mem_singleton.mp ht5
      subst ht
      have h5 : t = natToChars m5.toNat := by
        rw [← hc5]; unfold intToChars; rw [if_neg hn5]
      rw [h5] at hch
      exact isDigit_isTokenChar (natToChars_digits _ ch hch)

/-- A single-segment type identifier built from a well-formed 5- or 6-token
segment is accepted by `GtsID.__init__`. -/
theorem c4_type_id_ok (a b c d vMc : Str) (n : Int) (rest5 : List Str)
    (ha : tokenCore a = true) (hb : tokenCore b = true)
    (hc : tokenCore c = true) (hd : tokenCore d = true)
    (hv : pyInt vMc = some n) (hn : ¬ n < 0) (hcanon : intToChars n = vMc)
    (hrest : rest5 = [] ∨ ∃ t5 m5, rest5 = [t5] ∧ pyInt t5 = some m5
      ∧ ¬ m5 < 0 ∧ intToChars m5 = t5)
    (hlen : (gtsPrefix ++ joinSep ['.'] (a :: b :: c :: d :: ('v' :: vMc) :: rest5)
      ++ ['~']).length ≤ 1024) :
    ∃ g, GtsID.init (gtsPrefix ++ joinSep ['.'] (a :: b :: c :: d :: ('v' :: vMc) :: rest5)
        ++ ['~']) = .ok g
      ∧ strEnds g.id ['~'] = true ∧ g.gts_id_segments.length = 1 := by
  have hchars := c4_chars a b c d vMc n rest5 ha hb hc hd hn hcanon hrest
  have hsegchars : ∀ c2 ∈ joinSep ['.'] (a :: b :: c :: d :: ('v' :: vMc) :: rest5),
      isTokenChar c2 = true ∨ c2 = '.' := by
    intro c2 hm
    rcases mem_joinSep_dot _ _ hm with ⟨t, ht, hc2⟩ | hdot2
    · exact Or.inl (hchars t ht c2 hc2)
    · exact Or.inr hdot2
  have htilde : '~' ∉ joinSep ['.'] (a :: b :: c :: d :: ('v' :: vMc) :: rest5) := by
    intro hm
    rcases hsegchars '~' hm with htc | hdot2
    · exact (isTokenChar_spec htc).2.2.1 rfl
    · exact absurd hdot2 (by decide)
  have hmemFull : ∀ c2 ∈ gtsPrefix ++ joinSep ['.'] (a :: b :: c :: d :: ('v' :: vMc) :: rest5)
      ++ ['~'], c2 ∈ gtsPrefix ∨ (isTokenChar c2 = true ∨ c2 = '.') ∨ c2 = '~' := by
    intro c2 hm
    rcases List.mem_append.mp hm with hm1 | hm2
    · rcases List.mem_append.mp hm1 with hg | hs
      · exact Or.inl hg
      · exact Or.inr (Or.inl (hsegchars _ hs))
    · exact Or.inr (Or.inr (List.mem_singleton.mp hm2))
  have hlower : pyLower (gtsPrefix ++ joinSep ['.'] (a :: b :: c :: d :: ('v' :: vMc) :: rest5)
      ++ ['~']) = gtsPrefix ++ joinSep ['.'] (a :: b :: c :: d :: ('v' :: vMc) :: rest5)
      ++ ['~'] := by
    refine pyLower_fixed _ ?_
    intro c2 hc2
    rcases hmemFull c2 hc2 with hg | hs | h7
    · have hg2 : c2 ∈ ['g', 't', 's', '.'] := hg
      simp only [List.mem_cons, List.not_mem_nil, or_false] at hg2
      rcases hg2 with rfl | rfl | rfl | rfl <;> decide
    · rcases hs with htc | rfl
      · exact (isTokenChar_spec htc).1
      · decide
    · subst h7; decide
  have hdash : (gtsPrefix ++ joinSep ['.'] (a :: b :: c :: d :: ('v' :: vMc) :: rest5)
      ++ ['~']).contains '-' = false := by
    rw [Bool.eq_false_iff]
    intro hcont
    have hm := List.mem_of_elem_eq_true hcont
    rcases hmemFull '-' hm with hg | hs | h7
    · have hg2 : ('-' : Char) ∈ ['g', 't', 's', '.'] := hg
      simp at hg2
    · rcases hs with htc | hdot2
      · exact (isTokenChar_spec htc).2.1 rfl
      · exact absurd hdot2 (by decide)
    · exact absurd h7 (by decide)
  have hstrip : pyStrip (gtsPrefix ++ joinSep ['.'] (a :: b :: c :: d :: ('v' :: vMc) :: rest5)
      ++ ['~']) = gtsPrefix ++ joinSep ['.'] (a :: b :: c :: d :: ('v' :: vMc) :: rest5)
      ++ ['~'] :=
    pyStrip_eq_self_of_ends ⟨'g', _, rfl, by decide⟩ ⟨'~', _, rfl, by decide⟩
  have huri : ¬ (strStarts (gtsPrefix ++ joinSep ['.'] (a :: b :: c :: d :: ('v' :: vMc)
      :: rest5) ++ ['~']) gtsUriPrefix = true) := by
    intro h2
    rw [show strStarts (gtsPrefix ++ joinSep ['.'] (a :: b :: c :: d :: ('v' :: vMc) :: rest5)
      ++ ['~']) gtsUriPrefix = false from rfl] at h2
    exact Bool.noConfusion h2
  have hpfx : strStarts (gtsPrefix ++ joinSep ['.'] (a :: b :: c :: d :: ('v' :: vMc) :: rest5)
      ++ ['~']) gtsPrefix = true := by
    rw [List.append_assoc]
    exact strStarts_append_self _ _
  have hfullend2 : strEnds (gtsPrefix ++ (joinSep ['.'] (a :: b :: c :: d :: ('v' :: vMc)
      :: rest5) ++ ['~'])) ['~'] = true := by
    rw [← List.append_assoc]
    exact strEnds_concat _ _
  obtain ⟨st, hst⟩ := parse_segment_id_type_ok (0 + 1) gtsPrefix.length a b c d vMc n rest5
    ha hb hc hd hv hn hcanon hrest
  simp only [GtsID.init]
  rw [hstrip, if_neg huri]
  rw [if_neg (not_not_intro hlower.symm)]
  rw [if_neg (show ¬ ((gtsPrefix ++ joinSep ['.'] (a :: b :: c :: d :: ('v' :: vMc) :: rest5)
      ++ ['~']).contains '-' = true) from fun h2 => by rw [hdash] at h2; exact Bool.noConfusion h2)]
  rw [if_neg (not_not_intro hpfx)]
  rw [if_neg (not_lt.mpr hlen)]
  rw [List.append_assoc, List.drop_left]
  rw [splitOnChar_append [] htilde]
  simp only [splitOnChar]
  simp only [rebuildParts, if_pos rfl]
  simp only [parseSegmentsLoop, if_neg (show ¬ (joinSep ['.'] (a :: b :: c :: d
    :: ('v' :: vMc) :: rest5) ++ ['~'] = []) by simp)]
  rw [hst]
  refine ⟨⟨_, [st]⟩, ?_, hfullend2, rfl⟩
  simp [hfullend2]

/-- A successfully constructed identifier that is not a type (no trailing
`~`) and has exactly one segment must be a wildcard. -/
theorem c4_single_instance (s : Str) (g : GtsID) (h : GtsID.init s = .ok g)
    (hnotype : strEnds g.id ['~'] = false)
    (hsingle : g.gts_id_segments.length = 1) :
    g.gts_id_segments.any (fun seg => seg.is_wildcard) = true := by
  simp only [GtsID.init] at h
  by_cases hu : strStarts (pyStrip s) gtsUriPrefix = true
  · simp only [if_pos hu] at h
    set raw := (pyStrip s).drop gtsUriPrefix.length with hraw
    split at h
    · exact Except.noConfusion h
    split at h
    · exact Except.noConfusion h
    split at h
    · exact Except.noConfusion h
    split at h
    · exact Except.noConfusion h
    split at h
    · exact Except.noConfusion h
    rename_i segs hsegs
    split at h
    · exact Except.noConfusion h
    rename_i hguard
    have hg := Except.ok.inj h
    cases hg
    have hnt : strEnds raw ['~'] = false := hnotype
    have hs1 : segs.length = 1 := hsingle
    show segs.any (fun seg2 => seg2.is_wildcard) = true
    simp [hnt, hs1] at hguard
    rw [List.any_eq_true]
    obtain ⟨x, hx1, hx2⟩ := hguard
    exact ⟨x, hx1, hx2⟩
  · simp only [if_neg hu] at h
    set raw := pyStrip s with hraw
    split at h
    · exact Except.noConfusion h
    split at h
    · exact Except.noConfusion h
    split at h
    · exact Except.noConfusion h
    split at h
    · exact Except.noConfusion h
    split at h
    · exact Except.noConfusion h
    rename_i segs hsegs
    split at h
    · exact Except.noConfusion h
    rename_i hguard
    have hg := Except.ok.inj h
    cases hg
    have hnt : strEnds raw ['~'] = false := hnotype
    have hs1 : segs.length = 1 := hsingle
    show segs.any (fun seg2 => seg2.is_wildcard) = true
    simp [hnt, hs1] at hguard
    rw [List.any_eq_true]
    obtain ⟨x, hx1, hx2⟩ := hguard
    exact ⟨x, hx1, hx2⟩

/-- Claim C4: a successfully parsed identifier with exactly one segment and
no trailing `~` (a single-segment instance identifier) is necessarily a
wildcard — all other single-segment instance inputs fail with an
invalid-identifier error — while a single-segment type identifier (trailing
`~`) built from four regular tokens, a canonical `v`-major token and an
optional canonical minor token (a well-formed 5- or 6-token segment) parses
successfully within the length bound. -/
theorem C4_theorem :
    (∀ (s : Str) (g : GtsID), GtsID.init s = .ok g → strEnds g.id ['~'] = false →
      g.gts_id_segments.length = 1 →
      g.gts_id_segments.any (fun seg2 => seg2.is_wildcard) = true)
    ∧ (∀ (a b c d vMc : Str) (n : Int) (rest5 : List Str),
      tokenCore a = true → tokenCore b = true → tokenCore c = true → tokenCore d = true →
      pyInt vMc = some n → ¬ n < 0 → intToChars n = vMc →
      (rest5 = [] ∨ ∃ t5 m5, rest5 = [t5] ∧ pyInt t5 = some m5 ∧ ¬ m5 < 0
        ∧ intToChars m5 = t5) →
      (gtsPrefix ++ joinSep ['.'] (a :: b :: c :: d :: ('v' :: vMc) :: rest5)
        ++ ['~']).length ≤ 1024 →
      ∃ g, GtsID.init (gtsPrefix ++ joinSep ['.'] (a :: b :: c :: d :: ('v' :: vMc) :: rest5)
          ++ ['~']) = .ok g
        ∧ strEnds g.id ['~'] = true ∧ g.gts_id_segments.length = 1) :=
  ⟨c4_single_instance, fun a b c d vMc n rest5 ha hb hc hd hv hn hcanon hrest hlen =>
    c4_type_id_ok a b c d vMc n rest5 ha hb hc hd hv hn hcanon hrest hlen⟩

/-- The parse of the single-segment wildcard `gts.a.*`. -/
def c4_wild_g : GtsID :=
  ⟨"gts.a.*".data,
   [{ num := 1, offset := 4, segment := "a.*".data, vendor := "a".data,
      is_wildcard := true }]⟩

/-- Claim C4 witness: `gts.a.*` parses as a non-type single segment and is a
wildcard; `gts.a.a.a.a.v1~` (a well-formed 5-token type segment) parses as a
single-segment type identifier. -/
theorem C4_witness :
    c4_wild_g.gts_id_segments.any (fun seg2 => seg2.is_wildcard) = true
    ∧ ∃ g, GtsID.init (gtsPrefix
        ++ joinSep ['.'] ("a".data :: "a".data :: "a".data :: "a".data
          :: ('v' :: "1".data) :: []) ++ ['~']) = .ok g
      ∧ strEnds g.id ['~'] = true ∧ g.gts_id_segments.length = 1 :=
  ⟨C4_theorem.1 "gts.a.*".data c4_wild_g rfl rfl rfl,
   C4_theorem.2 "a".data "a".data "a".data "a".data "1".data 1 []
     rfl rfl rfl rfl rfl (by decide) rfl (Or.inl rfl) (by decide)⟩

/-- The number of registry identifiers not yet visited: the recursion
measure of `build_schema_graph`. -/
def unseenCount (store : GtsStore) (seen : List Str) : Nat :=
  ((dedupFirst (store.map Prod.fst)).filter (fun k => ! seen.contains k)).length

theorem filter_length_mono {α : Type} {p q : α → Bool}
    (l : List α) (h : ∀ y, q y = true → p y = true) :
    (l.filter q).length ≤ (l.filter p).length := by
  induction l with
  | nil => exact le_refl _
  | cons a t ih =>
    simp only [List.filter_cons]
    by_cases hq : q a = true
    · rw [if_pos hq, if_pos (h a hq)]
      simp only [List.length_cons]
      exact Nat.succ_le_succ ih
    · rw [if_neg hq]
      by_cases hp : p a = true
      · rw [if_pos hp]
        exact le_trans ih (Nat.le_succ _)
      · rw [if_neg hp]
        exact ih

theorem filter_length_lt {α : Type} {p q : α → Bool} :
    ∀ (l : List α) (x : α), x ∈ l → p x = true → q x = false →
      (∀ y, q y = true → p y = true) →
      (l.filter q).length < (l.filter p).length := by
  intro l
  induction l with
  | nil => intro x hx; cases hx
  | cons a t ih =>
    intro x hx hp hq himp
    simp only [List.filter_cons]
    rcases List.mem_cons.mp hx with rfl | hxt
    · rw [if_pos hp, if_neg (fun h2 => by rw [hq] at h2; exact Bool.noConfusion h2)]
      calc (t.filter q).length ≤ (t.filter p).length := filter_length_mono t himp
        _ < (x :: t.filter p).length := by
            rw [List.length_cons]; exact Nat.lt_succ_self _
    · by_cases hqa : q a = true
      · rw [if_pos hqa, if_pos (himp a hqa)]
        simp only [List.length_cons]
        exact Nat.succ_lt_succ (ih x hxt hp hq himp)
      · rw [if_neg hqa]
        by_cases hpa : p a = true
        · rw [if_pos hpa]
          exact Nat.lt_succ_of_lt (ih x hxt hp hq himp)
        · rw [if_neg hpa]
          exact ih x hxt hp hq himp

theorem contains_eq_false_of_not_mem {x : Str} {s : List Str} (h : x ∉ s) :
    s.contains x = false :=
  Bool.eq_false_iff.mpr (fun hc => h (List.mem_of_elem_eq_true hc))

theorem contains_eq_true_of_mem {x : Str} {s : List Str} (h : x ∈ s) :
    s.contains x = true := List.elem_eq_true_of_mem h

theorem unseenCount_mono (store : GtsStore) {s1 s2 : List Str} (h : s1 ⊆ s2) :
    unseenCount store s2 ≤ unseenCount store s1 := by
  refine filter_length_mono _ ?_
  intro y hy
  rw [Bool.not_eq_true'] at hy ⊢
  refine contains_eq_false_of_not_mem (fun hm => ?_)
  rw [contains_eq_true_of_mem (h hm)] at hy
  exact Bool.noConfusion hy

theorem unseenCount_cons_lt (store : GtsStore) {gid : Str} {seen : List Str}
    (hmem : gid ∈ store.map Prod.fst) (hunseen : seen.contains gid = false) :
    unseenCount store (gid :: seen) < unseenCount store seen := by
  refine filter_length_lt _ gid (mem_dedupFirst hmem) ?_ ?_ ?_
  · rw [Bool.not_eq_true', hunseen]
  · rw [contains_eq_true_of_mem (List.mem_cons_self gid seen)]
    rfl
  · intro y hy
    rw [Bool.not_eq_true'] at hy ⊢
    refine contains_eq_false_of_not_mem (fun hm => ?_)
    rw [contains_eq_true_of_mem (List.mem_cons_of_mem _ hm)] at hy
    exact Bool.noConfusion hy

theorem storeGet_mem {store : GtsStore} {gid : Str} {e : GtsEntity}
    (h : storeGet store gid = some e) : gid ∈ store.map Prod.fst := by
  induction store with
  | nil => exact Option.noConfusion h
  | cons kv rest ih =>
    obtain ⟨k, e2⟩ := kv
    rw [storeGet] at h
    by_cases hk : k = gid
    · rw [List.map_cons]
      exact hk ▸ List.mem_cons_self _ _
    · rw [if_neg hk] at h
      exact List.mem_cons_of_mem _ (ih h)

theorem gts2listF_growth (rec : Str → List Str → Option (GraphNode × List Str))
    (hrec : ∀ id s r, rec id s = some r → s ⊆ r.2) (gid : Str) :
    ∀ (refs : List GtsRef) (acc : List (Str × GraphNode)) (seen : List Str)
      (r : List (Str × GraphNode) × List Str),
      gts2listF rec gid refs acc seen = some r → seen ⊆ r.2 := by
  intro refs
  induction refs with
  | nil =>
    intro acc seen r h
    cases h
    exact fun x hx => hx
  | cons rf rs ih =>
    intro acc seen r h
    rw [gts2listF] at h
    split at h
    · exact ih _ _ _ h
    · split at h
      · exact ih _ _ _ h
      · cases hr : rec rf.id seen with
        | none => rw [hr] at h; exact Option.noConfusion h
        | some nr =>
          obtain ⟨node, seen'⟩ := nr
          rw [hr] at h
          exact fun x hx => ih _ _ _ h (hrec _ _ _ hr hx)

theorem gts2nodeF_growth (store : GtsStore) :
    ∀ (f : Nat) (gid : Str) (seen : List Str) (r : GraphNode × List Str),
      gts2nodeF store f gid seen = some r → seen ⊆ r.2 := by
  intro f
  induction f with
  | zero => intro gid seen r h; exact Option.noConfusion h
  | succ f ih =>
    intro gid seen r h
    simp only [gts2nodeF] at h
    split at h
    · cases h
      exact fun x hx => hx
    · split at h
      · rename_i entity hs
        split at h
        · exact Option.noConfusion h
        · rename_i refs seen2 hl
          have hsub2 : (gid :: seen) ⊆ seen2 :=
            gts2listF_growth _ (fun i s r2 => ih i s r2) _ _ _ _ _ hl
          split at h
          · split at h
            · split at h
              · exact Option.noConfusion h
              · rename_i snode seen3 hn
                cases h
                exact fun x hx => ih _ _ _ hn (hsub2 (List.mem_cons_of_mem _ hx))
            · cases h
              exact fun x hx => hsub2 (List.mem_cons_of_mem _ hx)
          · cases h
            exact fun x hx => hsub2 (List.mem_cons_of_mem _ hx)
      · cases h
        exact fun x hx => List.mem_cons_of_mem _ hx

theorem gts2listF_total (store : GtsStore) (f : Nat)
    (rec : Str → List Str → Option (GraphNode × List Str))
    (hrec : ∀ id s, unseenCount store s + 1 ≤ f →
      ∃ r, rec id s = some r ∧ s ⊆ r.2)
    (gid : Str) :
    ∀ (refs : List GtsRef) (acc : List (Str × GraphNode)) (seen : List Str),
      unseenCount store seen + 1 ≤ f →
      ∃ r, gts2listF rec gid refs acc seen = some r ∧ seen ⊆ r.2 := by
  intro refs
  induction refs with
  | nil => intro acc seen hb; exact ⟨(acc, seen), rfl, fun x hx => hx⟩
  | cons rf rs ih =>
    intro acc seen hb
    by_cases h1 : rf.id = gid
    · simp only [gts2listF, if_pos h1]
      exact ih acc seen hb
    · by_cases h2 : isJsonSchemaUrl rf.id = true
      · simp only [gts2listF, if_neg h1, if_pos h2]
        exact ih acc seen hb
      · obtain ⟨⟨node, seen'⟩, hr, hsub⟩ := hrec rf.id seen hb
        have hb2 : unseenCount store seen' + 1 ≤ f :=
          le_trans (Nat.add_le_add_right (unseenCount_mono store hsub) 1) hb
        obtain ⟨r2, h2', hsub2⟩ := ih (insertRef acc rf.sourcePath node) seen' hb2
        refine ⟨r2, ?_, fun x hx => hsub2 (hsub hx)⟩
        simp only [gts2listF, if_neg h1, if_neg h2, hr]
        exact h2'

theorem gts2nodeF_total (store : GtsStore) :
    ∀ (f : Nat) (gid : Str) (seen : List Str),
      unseenCount store seen + 1 ≤ f →
      ∃ r, gts2nodeF store f gid seen = some r ∧ seen ⊆ r.2 := by
  intro f
  induction f with
  | zero => intro gid seen hb; exact absurd hb (by omega)
  | succ f ih =>
    intro gid seen hb
    by_cases hc : seen.contains gid = true
    · have hm : gid ∈ seen := List.mem_of_elem_eq_true hc
      exact ⟨(GraphNode.bare gid, seen), by simp [gts2nodeF, hc, hm], fun x hx => hx⟩
    · rw [Bool.not_eq_true] at hc
      have hnm : gid ∉ seen := fun hm => by
        rw [contains_eq_true_of_mem hm] at hc; exact Bool.noConfusion hc
      cases hs : storeGet store gid with
      | none =>
        refine ⟨(.mk gid [] none ["Entity not found".data], gid :: seen), ?_,
          fun x hx => List.mem_cons_of_mem _ hx⟩
        simp [gts2nodeF, hc, hnm, hs]
      | some entity =>
        have hmem : gid ∈ store.map Prod.fst := storeGet_mem hs
        have hlt : unseenCount store (gid :: seen) < unseenCount store seen :=
          unseenCount_cons_lt store hmem hc
        have hb1 : unseenCount store (gid :: seen) + 1 ≤ f := by omega
        obtain ⟨⟨refs, seen2⟩, hl, hsub2⟩ :=
          gts2listF_total store f (gts2nodeF store f) ih gid entity.gts_refs [] (gid :: seen) hb1
        by_cases hsid : entity.schemaId ≠ []
        · by_cases hurl : isJsonSchemaUrl entity.schemaId = true
          · refine ⟨(.mk gid refs none [], seen2), ?_,
              fun x hx => hsub2 (List.mem_cons_of_mem _ hx)⟩
            simp [gts2nodeF, hc, hnm, hs, hl, hsid, hurl]
          · have hb2 : unseenCount store seen2 + 1 ≤ f :=
              le_trans (Nat.add_le_add_right (unseenCount_mono store hsub2) 1) hb1
            obtain ⟨⟨snode, seen3⟩, hn, hsub3⟩ := ih entity.schemaId seen2 hb2
            refine ⟨(.mk gid refs (some snode) [], seen3), ?_,
              fun x hx => hsub3 (hsub2 (List.mem_cons_of_mem _ hx))⟩
            simp [gts2nodeF, hc, hnm, hs, hl, hsid, hurl, hn]
        · refine ⟨(.mk gid refs none ["Schema not recognized".data], seen2), ?_,
            fun x hx => hsub2 (List.mem_cons_of_mem _ hx)⟩
          simp [gts2nodeF, hc, hnm, hs, hl, hsid]

/-- A two-entity registry with a reference cycle: `a` references `b` and `b`
references `a`. -/
def c7_store : GtsStore :=
  [("gts.a.a.a.a.v1~".data,
    { content := .obj [], gts_refs := [⟨"gts.b.b.b.b.v1~".data, "properties.x".data⟩] }),
   ("gts.b.b.b.b.v1~".data,
    { content := .obj [], gts_refs := [⟨"gts.a.a.a.a.v1~".data, "properties.y".data⟩] })]

/-- Claim C7: `build_schema_graph` terminates on every registry and start
identifier once the fuel reaches the number of unvisited registry
identifiers plus one — the fuel models only the recursion depth of the
source, whose visited-set argument makes that depth bounded — an identifier
already in the visited set is emitted as a bare `{id}` leaf without
re-expanding its references or schema, and on the cyclic registry
`a -> b -> a` the graph is built with the second encounter of `a` as a bare
leaf. -/
theorem C7_theorem :
    (∀ (store : GtsStore) (fuel : Nat) (gid : Str),
      unseenCount store [] + 1 ≤ fuel →
      (GtsStore.build_schema_graph store fuel gid).isSome = true)
    ∧ (∀ (store : GtsStore) (f : Nat) (gid : Str) (seen : List Str),
      seen.contains gid = true →
      gts2nodeF store (f + 1) gid seen = some (GraphNode.bare gid, seen))
    ∧ GtsStore.build_schema_graph c7_store 3 "gts.a.a.a.a.v1~".data
      = some (.mk "gts.a.a.a.a.v1~".data
          [("properties.x".data, .mk "gts.b.b.b.b.v1~".data
            [("properties.y".data, GraphNode.bare "gts.a.a.a.a.v1~".data)] none
            ["Schema not recognized".data])]
          none ["Schema not recognized".data]) := by
  refine ⟨?_, ?_, rfl⟩
  · intro store fuel gid hb
    obtain ⟨r, hr, _⟩ := gts2nodeF_total store fuel gid [] hb
    unfold GtsStore.build_schema_graph
    rw [hr]
    rfl
  · intro store f gid seen hcont
    have hm : gid ∈ seen := List.mem_of_elem_eq_true hcont
    simp [gts2nodeF, hcont, hm, GraphNode.bare]

/-- Claim C7 witness: on the cyclic two-entity registry the graph build
succeeds at fuel 3 (= 2 unvisited identifiers + 1), and a seen identifier
is returned as a bare leaf with the visited set unchanged. -/
theorem C7_witness :
    (GtsStore.build_schema_graph c7_store 3 "gts.b.b.b.b.v1~".data).isSome = true
    ∧ gts2nodeF c7_store 1 "gts.a.a.a.a.v1~".data ["gts.a.a.a.a.v1~".data]
      = some (GraphNode.bare "gts.a.a.a.a.v1~".data, ["gts.a.a.a.a.v1~".data]) :=
  ⟨C7_theorem.1 c7_store 3 "gts.b.b.b.b.v1~".data (by decide),
   C7_theorem.2.1 c7_store 0 "gts.a.a.a.a.v1~".data ["gts.a.a.a.a.v1~".data] (by decide)⟩
